import Mathlib

/-!
Verification development for the erp_sonolight repository
(small-business quote / invoice / accounting back office over JSON files).

The Python sources are shallowly embedded:
* Python scalars (`None`, `bool`, `int`, `float`, `str`) become the
  inductive `Scalar`; floats are modelled as exact rationals.
* Python dicts become association lists `List (String × _)` with
  first-match lookup and insert-or-replace assignment, mirroring the
  insertion-order semantics of `dict`.
* fallible code (pydantic validation) returns `Except Unit _`.
* Machine-independent Python integers are `Int`.

String-to-number parsing helpers model the `int(...)` / `float(...)` /
`Decimal(...)` conversions on ordinary finite decimal literals (optional
sign, digits, at most one decimal point); exotic literals (exponents,
`inf`, `nan`, underscores) are outside the modelled input universe.
-/

namespace Erp

/-- A Python scalar value: `None`, `bool`, `int`, `float` (modelled as an
exact rational) or `str`. -/
inductive Scalar where
  | none
  | bool (b : Bool)
  | int (n : Int)
  | float (q : ℚ)
  | str (s : String)
  deriving DecidableEq, Repr, Inhabited

namespace Scalar

/-- Python truthiness of a scalar: `None`, `False`, `0`, `0.0` and `""`
are falsy, everything else is truthy. -/
def truthy : Scalar → Bool
  | .none => false
  | .bool b => b
  | .int n => n != 0
  | .float q => q != 0
  | .str s => s != ""

/-- Python `x or y` on scalars: `x` if truthy, else `y`. -/
def pyOr (a b : Scalar) : Scalar := if a.truthy then a else b

/-- Python `x in (None, "")` membership test (via `==`). -/
def isNoneOrEmpty : Scalar → Bool
  | .none => true
  | .str s => s == ""
  | _ => false

end Scalar

/-! ### Python dicts as insertion-ordered association lists -/

section AList

variable {β : Type}

def aget? (d : List (String × β)) (k : String) : Option β :=
  (d.find? (fun p => p.1 == k)).map Prod.snd

def ahasKey (d : List (String × β)) (k : String) : Bool :=
  (d.find? (fun p => p.1 == k)).isSome

def aset : List (String × β) → String → β → List (String × β)
  | [], k, v => [(k, v)]
  | (a, b) :: t, k, v => if a == k then (k, v) :: t else (a, b) :: aset t k v

@[simp] theorem aget?_nil (k : String) : aget? ([] : List (String × β)) k = Option.none := rfl

theorem aget?_cons (a : String) (b : β) (t : List (String × β)) (k : String) :
    aget? ((a, b) :: t) k = if a == k then some b else aget? t k := by
  simp only [aget?, List.find?]
  cases h : a == k <;> simp [h]

theorem aset_cons (a : String) (b : β) (t : List (String × β)) (k : String) (v : β) :
    aset ((a, b) :: t) k v = if a == k then (k, v) :: t else (a, b) :: aset t k v := rfl

theorem ahasKey_cons (a : String) (b : β) (t : List (String × β)) (k : String) :
    ahasKey ((a, b) :: t) k = (a == k || ahasKey t k) := by
  simp only [ahasKey, List.find?]
  cases h : a == k <;> simp [h]

@[simp] theorem aget?_aset_self (d : List (String × β)) (k : String) (v : β) :
    aget? (aset d k v) k = some v := by
  induction d with
  | nil => simp [aset, aget?_cons]
  | cons p t ih =>
      obtain ⟨a, b⟩ := p
      rw [aset_cons]
      by_cases h : a == k
      · rw [if_pos h, aget?_cons, if_pos (by simp)]
      · rw [if_neg h, aget?_cons, if_neg h]
        exact ih

@[simp] theorem aget?_aset_ne (d : List (String × β)) (k k2 : String) (v : β)
    (h : k ≠ k2) : aget? (aset d k v) k2 = aget? d k2 := by
  induction d with
  | nil =>
      simp only [aset, aget?_cons, aget?_nil]
      rw [if_neg (by simpa using h)]
  | cons p t ih =>
      obtain ⟨a, b⟩ := p
      rw [aset_cons]
      by_cases ha : a == k
      · rw [if_pos ha, aget?_cons, aget?_cons, if_neg (by simpa using h)]
        have : a = k := by simpa using ha
        rw [this]
        rw [if_neg (by simpa using h)]
      · rw [if_neg ha, aget?_cons, aget?_cons, ih]

theorem ahasKey_aset (d : List (String × β)) (k k2 : String) (v : β) :
    ahasKey (aset d k v) k2 = (k == k2 || ahasKey d k2) := by
  induction d with
  | nil =>
      simp only [aset, ahasKey, List.find?]
      cases h : k == k2 <;> simp [h]
  | cons p t ih =>
      obtain ⟨a, b⟩ := p
      rw [aset_cons]
      by_cases ha : a == k
      · have hak : a = k := by simpa using ha
        rw [if_pos ha, ahasKey_cons, ahasKey_cons, hak]
        cases h2 : (k == k2) <;> simp [h2]
      · rw [if_neg ha, ahasKey_cons, ahasKey_cons, ih]
        cases h2 : (a == k2) <;> cases h3 : (k == k2) <;> simp [h2, h3]

theorem aset_eq_self (d : List (String × β)) (k : String) (v : β)
    (h : aget? d k = some v) : aset d k v = d := by
  induction d with
  | nil => simp [aget?] at h
  | cons p t ih =>
      obtain ⟨a, b⟩ := p
      rw [aget?_cons] at h
      rw [aset_cons]
      by_cases ha : a == k
      · rw [if_pos ha] at h ⊢
        have hak : a = k := by simpa using ha
        cases h
        rw [hak]
      · rw [if_neg ha] at h ⊢
        rw [ih h]

end AList

/-- A Python dict with scalar values. -/
abbrev Dict := List (String × Scalar)

/-- `d.get(k)` with Python default `None`. -/
def dgetd (d : Dict) (k : String) : Scalar := (aget? d k).getD .none

/-! ### Number parsing helpers (models of `int(...)`, `float(...)`, `Decimal(...)`)

`Rat.mul` / `Rat.div` are irreducible in this toolchain, so the embedding
uses `Rat.divInt` / `mkRat` forms of the same operations (bridging lemmas
below relate them to `*`), keeping every definition kernel-evaluable.
Likewise, string processing is done over `List Char`. -/

/-- Whitespace characters stripped by Python `str.strip()`. -/
def isPySpace (c : Char) : Bool :=
  c == ' ' || c == '\t' || c == '\n' || c == '\r' || c == '\x0b' || c == '\x0c'

/-- Python `str.strip()` over a character list. -/
def stripChars (cs : List Char) : List Char :=
  ((cs.dropWhile isPySpace).reverse.dropWhile isPySpace).reverse

/-- `pat` occurs as a contiguous sublist of `s`. -/
def hasInfix (pat : List Char) : List Char → Bool
  | [] => pat.isEmpty
  | c :: rest => pat.isPrefixOf (c :: rest) || hasInfix pat rest

/-- Exact rational multiplication, in a kernel-evaluable form. -/
def ratMul (a b : ℚ) : ℚ := Rat.divInt (a.num * b.num) ((a.den : Int) * (b.den : Int))

/-- Exact rational subtraction, in a kernel-evaluable form. -/
def ratSub (a b : ℚ) : ℚ :=
  Rat.divInt (a.num * (b.den : Int) - b.num * (a.den : Int)) ((a.den : Int) * (b.den : Int))

/-- Digit characters to a natural number (most significant first);
`foldl` over `0`, so leading zeros are harmless. -/
def digitsToNat (cs : List Char) : Nat :=
  cs.foldl (fun a c => a * 10 + (c.toNat - 48)) 0

/-- All characters are decimal digits. -/
def allDigits (cs : List Char) : Bool := cs.all (fun c => c.isDigit)

/-- Parse an optional sign followed by a nonempty run of digits;
models Python `int(s)` on a stripped string (underscored or exotic
literals are outside the modelled universe). -/
def parseSignedDigits (cs : List Char) : Option Int :=
  match cs with
  | '-' :: rest =>
      if rest ≠ [] ∧ allDigits rest then some (-(digitsToNat rest : Int)) else none
  | '+' :: rest =>
      if rest ≠ [] ∧ allDigits rest then some ((digitsToNat rest : Int)) else none
  | _ => if cs ≠ [] ∧ allDigits cs then some ((digitsToNat cs : Int)) else none

/-- Model of Python `int(s)` for a string: strip surrounding spaces, then
an optional sign and digits. -/
def pyIntOfString (s : String) : Option Int :=
  parseSignedDigits (stripChars s.toList)

/-- Parse an unsigned decimal literal `digits [ . digits ]` with at least
one digit overall and at most one point, as an exact rational. -/
def parseUnsignedDecimal (cs : List Char) : Option ℚ :=
  match cs.splitOn '.' with
  | [a] => if a ≠ [] ∧ allDigits a then some ((digitsToNat a : ℚ)) else none
  | [a, b] =>
      if (a ++ b) ≠ [] ∧ allDigits a ∧ allDigits b then
        some (mkRat (digitsToNat (a ++ b) : Int) (10 ^ b.length))
      else none
  | _ => none

/-- Parse an optionally signed decimal literal, as `Decimal(s)` does on a
string containing only `[0-9.\-]`. -/
def parseSignedDecimal (cs : List Char) : Option ℚ :=
  match cs with
  | '-' :: rest => (parseUnsignedDecimal rest).map Neg.neg
  | _ => parseUnsignedDecimal cs

/-- Model of Python `float(s)`: strip spaces, optional sign, plain decimal
literal (exponents / infinities are outside the modelled universe). -/
def pyFloatOfString (s : String) : Option ℚ :=
  match stripChars s.toList with
  | '+' :: rest => parseUnsignedDecimal rest
  | cs => parseSignedDecimal cs

/-- Truncation toward zero, as Python `int(x)` does on a number. -/
def truncZ (q : ℚ) : Int := q.num.tdiv q.den

/-- Round half to even, as Python `round(x)` does. -/
def pyRound (q : ℚ) : Int :=
  let f : Int := q.floor
  let r : ℚ := ratSub q (Rat.divInt f 1)
  if Rat.blt r (mkRat 1 2) then f
  else if Rat.blt (mkRat 1 2) r then f + 1
  else if f % 2 = 0 then f else f + 1

/-- Model of Python `int(x)` applied to a scalar, `none` when it raises
(`int(None)`, `int("not a number")`, ...).  `bool` is an `int` subclass. -/
def pyIntOfScalar : Scalar → Option Int
  | .none => none
  | .bool b => some (if b then 1 else 0)
  | .int n => some n
  | .float q => some (truncZ q)
  | .str s => pyIntOfString s

/-- Model of Python `float(x)` applied to a scalar, `none` when it raises. -/
def pyFloatOfScalar : Scalar → Option ℚ
  | .none => none
  | .bool b => some (if b then 1 else 0)
  | .int n => some (n : ℚ)
  | .float q => some q
  | .str s => pyFloatOfString s

/-- First hit wins over a list of candidates. -/
def firstSome {α β : Type} (f : α → Option β) : List α → Option β
  | [] => Option.none
  | x :: xs => match f x with
    | some b => some b
    | none => firstSome f xs

/-! ### Money Normalizer: `_price_to_cents` (core/services/quote_service.py) -/

/-- `_clean_to_decimal` from quote_service.py: `None`/`""` give `None`;
an `int`/`float` is converted via `Decimal(str(val))` (exact); a `bool`
makes `Decimal("True"/"False")` raise, giving `None`; a string is
stripped of every character but `0-9`, `,`, `.`, `-`, the decimal comma
is replaced by a dot, and the result parsed as an exact decimal. -/
def cleanToDecimal : Scalar → Option ℚ
  | .none => none
  | .bool _ => none
  | .int n => some (n : ℚ)
  | .float q => some q
  | .str s =>
      if s == "" then none
      else
        let cleaned := (s.toList.filter
          (fun c => c.isDigit || c == ',' || c == '.' || c == '-')).map
          (fun c => if c == ',' then '.' else c)
        parseSignedDecimal cleaned

/-- `"price" in k.lower()`. -/
def keyMentionsPrice (k : String) : Bool :=
  hasInfix "price".toList (k.toList.map Char.toLower)

/-- The cents-unit field names probed by `_price_to_cents`, in order. -/
def centsKeys : List String :=
  ["price_cents", "price_cent", "price_ttc_cent", "price_ht_cent",
   "unit_price_cent", "unit_price_cents"]

/-- The euro-unit field names probed by `_price_to_cents`, in order. -/
def euroKeys : List String :=
  ["price_eur", "price", "unit_price_eur", "unit_price", "priceTtcEur", "ttc_eur"]

/-- One iteration of the cents-keys loop of `_price_to_cents`:
skip when the key is absent or the value is `None`/`""` or `int(...)`
raises, else return the clamped integer. -/
def tryCentsKey (payload : Dict) (k : String) : Option Int := do
  let v ← aget? payload k
  if v.isNoneOrEmpty then Option.none
  else
    let n ← pyIntOfScalar v
    pure (max 0 n)

/-- One iteration of the euro-keys loop of `_price_to_cents`:
parse as a decimal, multiply by 100 and truncate toward zero
(`int(d * 100)`), clamped to `≥ 0`. -/
def tryEuroKey (payload : Dict) (k : String) : Option Int := do
  let v ← aget? payload k
  if v.isNoneOrEmpty then Option.none
  else
    let d ← cleanToDecimal v
    pure (max 0 (truncZ (ratMul d 100)))

/-- `_price_to_cents` (quote_service.py): cents-named fields first, then
euro-named fields, then any key whose (lowercased) name contains
`"price"`, else `0`. -/
def priceToCents (payload : Dict) : Int :=
  match firstSome (tryCentsKey payload) centsKeys with
  | some n => n
  | none =>
    match firstSome (tryEuroKey payload) euroKeys with
    | some n => n
    | none =>
      match firstSome
          (fun (p : String × Scalar) =>
            if keyMentionsPrice p.1 ∧ ¬ p.2.isNoneOrEmpty then
              (cleanToDecimal p.2).map (fun d => max 0 (truncZ (ratMul d 100)))
            else Option.none) payload with
      | some n => n
      | none => 0

/-! ### Money Normalizer: `_parse_price_to_cents` (core/services/catalog_service.py) -/

/-- The euro-branch conversion of `_parse_price_to_cents`:
`str(v).strip()`, skip when empty, decimal comma to dot, `float(...)`.
For an `int`/`float` the `str`/`float` round trip is value-preserving;
for a `bool`, `float("True"/"False")` raises. -/
def catalogEuroValue : Scalar → Option ℚ
  | .none => none
  | .bool _ => none
  | .int n => some (n : ℚ)
  | .float q => some q
  | .str s =>
      let t := stripChars s.toList
      if t == [] then none
      else pyFloatOfString (String.mk (t.map (fun c => if c == ',' then '.' else c)))

/-- `_parse_price_to_cents` (catalog_service.py): integer cents keys
first (skipping only values that are `None` or fail `int(...)`), then
`price` / `price_eur` in euros, multiplied by 100 and rounded half to
even (`round(euros * 100)`), clamped to `≥ 0`; else `0`. -/
def catalogParsePriceToCents (payload : Dict) : Int :=
  let tryInt := fun k => do
    let v ← aget? payload k
    if v = .none then Option.none
    else
      let n ← pyIntOfScalar v
      pure (max 0 n)
  let tryEuro := fun k => do
    let v ← aget? payload k
    if v = .none then Option.none
    else
      let e ← catalogEuroValue v
      pure (max 0 (pyRound (ratMul e 100)))
  match firstSome tryInt ["price_cents", "price_cent", "price_ttc_cent", "price_ht_cent"] with
  | some n => n
  | none =>
    match firstSome tryEuro ["price", "price_eur"] with
    | some n => n
    | none => 0

example : priceToCents [("price_eur", .str "18,50")] = 1850 := by decide
example : priceToCents [("price_cents", .int 1850)] = 1850 := by decide
example : priceToCents [] = 0 := by decide
example : priceToCents [("price", .str "abc")] = 0 := by decide
example : priceToCents [("price_eur", .str "18.999")] = 1899 := by decide
example : catalogParsePriceToCents [("price_eur", .str "18,50")] = 1850 := by decide
example : catalogParsePriceToCents [("price_cents", .int 1850)] = 1850 := by decide
example : catalogParsePriceToCents [("price", .str "abc")] = 0 := by decide

/-! ### Record Store (core/storage/json_repo.py and core/storage/repo.py)

The repository holds two distinct generic JSON repositories: the
backed-up one in `core/storage/json_repo.py` (used by quote, catalog and
client services) and the plain one in `core/storage/repo.py` (used by
the invoice service).  Records are modelled as scalar-valued dicts. -/

/-- A stored record. -/
abbrev Rec := Dict

/-- Python `str(x)` for the scalar values compared as primary keys.
Keys are strings (or occasionally absent) in this code base; the float
case uses a placeholder rendering (`repr` of a float never collides with
the other cases in the modelled universe). -/
def scalarStr : Scalar → String
  | .none => "None"
  | .bool b => if b then "True" else "False"
  | .int n => toString n
  | .float q => "float:" ++ toString q.num ++ "/" ++ toString q.den
  | .str s => s

/-- `JsonRepository.add` from core/storage/json_repo.py: when the record
has no truthy primary key, assign the generated `genId` (`uuid4().hex`);
raise `ValueError` when another record stringifies to the same key;
otherwise append the record (the caller then persists the new list). -/
def addRecord (genId : String) (key : String) (item : Rec) : Rec :=
  if (dgetd item key).truthy then item else aset item key (.str genId)

def jsonRepoAdd (genId : String) (key : String) (data : List Rec) (item : Rec) :
    Except String (Rec × List Rec) :=
  let record := addRecord genId key item
  if data.any (fun d => scalarStr (dgetd d key) == scalarStr (dgetd record key)) then
    .error "duplicate key"
  else
    .ok (record, data ++ [record])

/-- `JsonRepository.add` from core/storage/repo.py: append the item and
save — no key generation, no duplicate check. -/
def repoPyAdd (data : List Rec) (item : Rec) : List Rec := data ++ [item]

/-- The state of the backing file of a store, as seen by `json.load`. -/
inductive FileContent where
  | parsed (rows : List Rec)
  | invalid (raw : String)
  | missing
  deriving DecidableEq, Repr

/-- `JsonRepository._read_raw` from json_repo.py, paired with the
`.corrupt.json` sibling file: a parseable JSON array reads as its rows; a
missing file reads as empty; invalid JSON reads as empty AND copies the
original bytes over the `.corrupt.json` sibling (`shutil.copy2`). -/
def jsonRepoReadRaw (file : FileContent) (corrupt : Option String) :
    List Rec × Option String :=
  match file with
  | .parsed rows => (rows, corrupt)
  | .invalid raw => ([], some raw)
  | .missing => ([], corrupt)

/-- `list_all` of json_repo.py is `_read_raw`. -/
def jsonRepoListAll (file : FileContent) (corrupt : Option String) :
    List Rec × Option String :=
  jsonRepoReadRaw file corrupt

/-- `JsonRepository._load` from core/storage/repo.py: any `json.load`
failure silently yields the empty collection; nothing is written
anywhere (in particular no `.corrupt.json` sibling is created). -/
def repoPyLoad : FileContent → List Rec
  | .parsed rows => rows
  | .invalid _ => []
  | .missing => []

/-- `list_all` of repo.py returns the loaded data; the pair records that
the on-disk `.corrupt.json` sibling is left untouched. -/
def repoPyListAll (file : FileContent) (corrupt : Option String) :
    List Rec × Option String :=
  (repoPyLoad file, corrupt)

/-! ### Document Number Generator
(`QuoteService._next_quote_number`, `InvoiceService._next_invoice_number`) -/

/-- The decimal digit character for `d < 10`. -/
def digitChar (d : Nat) : Char := Char.ofNat (48 + d)

/-- Decimal digit characters of `n`, most significant first (fuelled so
that it stays kernel-evaluable; the fuel `n + 1` always suffices). -/
def natDigitsAux : Nat → Nat → List Char
  | 0, _ => []
  | f + 1, n =>
      if n < 10 then [digitChar n] else natDigitsAux f (n / 10) ++ [digitChar (n % 10)]

/-- Decimal digit characters of `n`, most significant first. -/
def natDigits (n : Nat) : List Char := natDigitsAux (n + 1) n

/-- `f"{n:04d}"` for `n ≥ 0`: decimal digits left-padded with zeros to at
least four characters. -/
def pad4 (n : Nat) : List Char :=
  List.replicate (4 - (natDigits n).length) '0' ++ natDigits n

/-- `f"{n:04d}"` as a string. -/
def pad4Str (n : Nat) : String := String.mk (pad4 n)

/-- One step of `s.replace(pat, "")`: remove non-overlapping occurrences
of `pat` left to right (fuelled so that it stays kernel-evaluable; fuel
`s.length` always suffices). -/
def removeAllAux (pat : List Char) : Nat → List Char → List Char
  | 0, s => s
  | _ + 1, [] => []
  | fuel + 1, c :: rest =>
      if pat ≠ [] ∧ pat.isPrefixOf (c :: rest) then
        removeAllAux pat fuel (rest.drop (pat.length - 1))
      else c :: removeAllAux pat fuel rest

/-- Python `s.replace(pat, "")` for a nonempty `pat`. -/
def removeAll (pat s : List Char) : List Char := removeAllAux pat s.length s

/-- The quote number series of the year: `f"DV-{year}-"`. -/
def quotePfx (year : Nat) : String :=
  "DV-" ++ String.mk (natDigits year) ++ "-"

/-- The scan-for-maximum loop of `_next_quote_number`
(quote_service.py): over the raw quote documents (represented by the
value of their `number` field), keep the largest `int(tail)` among the
string numbers starting with the year prefix, starting from `0`;
non-string numbers, other prefixes and unparseable tails are skipped. -/
def quoteScanStep (year : Nat) (m : Int) (v : Scalar) : Int :=
  match v.pyOr (.str "") with
  | .str s =>
      if (quotePfx year).toList.isPrefixOf s.toList then
        match pyIntOfString (String.mk (removeAll (quotePfx year).toList s.toList)) with
        | some n => if m < n then n else m
        | Option.none => m
      else m
  | _ => m

/-- The maximum seen by the scan (`max_n` of `_next_quote_number`). -/
def quoteMaxSuffix (year : Nat) (docs : List Scalar) : Int :=
  docs.foldl (quoteScanStep year) 0

/-- `_next_quote_number`: `f"{prefix}{max_n + 1:04d}"`. -/
def nextQuoteNumber (year : Nat) (docs : List Scalar) : String :=
  quotePfx year ++ pad4Str ((quoteMaxSuffix year docs + 1).toNat)

/-- Allocate `n` quote numbers in sequence, each time persisting the new
document (so that the next scan sees it). -/
def allocQuoteNumbers (year : Nat) (docs : List Scalar) : Nat → List String
  | 0 => []
  | n + 1 =>
      let x := nextQuoteNumber year docs
      x :: allocQuoteNumbers year (docs ++ [.str x]) n

/-- The invoice-type code map of `_next_invoice_number`. -/
def invTypeCode (invType : String) : String :=
  if invType = "ACOMPTE" then "A"
  else if invType = "SOLDE" then "S"
  else if invType = "FINALE" then "F"
  else "X"

/-- `_next_invoice_number` (invoice_service.py): *not* a scan — it reads
the counter `invoice_seq_<code>` from the settings `numbering` object
(default `1`), formats `f"{prefix}{seq:04d}"` and writes back `seq + 1`.
The embedding covers integer-valued counters (the only values the code
itself ever writes). Returns the number and the updated `numbering`. -/
def nextInvoiceNumber (numbering : Dict) (invType : String) : String × Dict :=
  let basePfx := match aget? numbering "invoice_prefix" with
    | some (.str s) => s
    | _ => "FAC-"
  let code := invTypeCode invType
  let pfx := basePfx ++ code ++ "-"
  let seqKey := "invoice_seq_" ++ code
  let seq : Int := match aget? numbering seqKey with
    | some (.int n) => n
    | _ => 1
  (pfx ++ pad4Str seq.toNat, aset numbering seqKey (.int (seq + 1)))

/-- The claimed allocation algorithm, in the words of the specification:
scan all existing documents, keep numbers that parse as the prefix
followed by a 4-digit integer, and return max + 1 zero-padded to 4
digits (1 when none match). -/
def specNextNumber (pfx : String) (existing : List String) : String :=
  let suffixes := existing.filterMap (fun s =>
    if pfx.toList.isPrefixOf s.toList then
      let t := s.toList.drop pfx.toList.length
      if t.length = 4 ∧ allDigits t then some (digitsToNat t) else Option.none
    else Option.none)
  pfx ++ pad4Str (suffixes.foldl max 0 + 1)

/-! ### Catalog Lookup (core/services/catalog_service.py, as consumed by
`QuoteService._find_catalog_match`)

Catalog stores are modelled as lists of already-hydrated
`Product`/`Service` objects (both classes have the same shape). -/

/-- A hydrated `Product` / `Service` record. -/
structure CatItem where
  id : Option String
  ref : Option String
  name : String
  label : Option String
  description : Option String
  price_cents : Int
  unit : Option String
  active : Bool
  deriving DecidableEq, Repr

/-- The two catalog stores. -/
structure Catalog where
  products : List CatItem
  services : List CatItem
  deriving DecidableEq, Repr

/-- An `Optional[str]` field as it appears through `model_dump()`. -/
def optStrScalar : Option String → Scalar
  | Option.none => .none
  | some s => .str s

/-- `model_dump()` of a `Product`/`Service`, in field order, as fed to
`_price_to_cents` and read by `_enrich_line_dict`. -/
def catItemDump (p : CatItem) : Dict :=
  [("id", optStrScalar p.id), ("ref", optStrScalar p.ref), ("name", .str p.name),
   ("label", optStrScalar p.label), ("description", optStrScalar p.description),
   ("price_cents", .int p.price_cents), ("unit", optStrScalar p.unit),
   ("active", .bool p.active)]

/-- `get_product` / `get_service` by id: the repository compares
`str(it.get("id")) == str(obj_id)`. -/
def lookupById (items : List CatItem) (v : Scalar) : Option CatItem :=
  items.find? (fun p => scalarStr (optStrScalar p.id) == scalarStr v)

/-- `(p.ref or "").strip()`. -/
def catRefKey (p : CatItem) : String := String.mk (stripChars (p.ref.getD "").toList)

/-- `(p.label or p.name or "").strip().casefold()` (ASCII casefold). -/
def catLabelKey (p : CatItem) : String :=
  let base := match p.label with
    | some s => if s ≠ "" then s else p.name
    | Option.none => p.name
  String.mk ((stripChars base.toList).map Char.toLower)

/-- Stage 3 of `_find_catalog_match`: case-insensitive trimmed
label/name match, products before services; a truthy non-string
label would make `.strip()` raise `AttributeError` (uncaught). -/
def findByLabel (cat : Catalog) (line : Dict) : Except Unit (Option CatItem) :=
  match Scalar.pyOr (dgetd line "label") (Scalar.pyOr (dgetd line "name") (.str "")) with
  | .str ls =>
      let lbl := String.mk ((stripChars ls.toList).map Char.toLower)
      if lbl ≠ "" then
        match cat.products.find? (fun p => catLabelKey p == lbl) with
        | some p => .ok (some p)
        | Option.none =>
          match cat.services.find? (fun p => catLabelKey p == lbl) with
          | some p => .ok (some p)
          | Option.none => .ok Option.none
      else .ok Option.none
  | _ => .error ()

/-- `QuoteService._find_catalog_match`: by `product_id` / `service_id`
(a failed id lookup raises inside a `try` and falls through), then by
trimmed `ref` (products before services), then by label/name. -/
def findCatalogMatch (cat : Catalog) (line : Dict) : Except Unit (Option CatItem) :=
  let pid := Scalar.pyOr (dgetd line "product_id") (.str "")
  let sid := Scalar.pyOr (dgetd line "service_id") (.str "")
  match (if pid.truthy then lookupById cat.products pid else Option.none),
        (if sid.truthy then lookupById cat.services sid else Option.none) with
  | some p, _ => .ok (some p)
  | Option.none, some s => .ok (some s)
  | Option.none, Option.none =>
    match Scalar.pyOr (dgetd line "ref") (.str "") with
    | .str rs =>
        let ref := String.mk (stripChars rs.toList)
        if ref ≠ "" then
          match cat.products.find? (fun p => catRefKey p == ref) with
          | some p => .ok (some p)
          | Option.none =>
            match cat.services.find? (fun p => catRefKey p == ref) with
            | some p => .ok (some p)
            | Option.none => findByLabel cat line
        else findByLabel cat line
    | _ => .error ()

/-! ### Quote line model and hydration
(core/models/quote.py `QuoteLine`; core/services/quote_service.py
`_enrich_line_dict`, `_hydrate_line`) -/

/-- `Literal["product", "service"]`. -/
inductive ItemType where
  | product
  | service
  deriving DecidableEq, Repr

/-- The render of an `ItemType` back into a string. -/
def itemTypeStr : ItemType → String
  | .product => "product"
  | .service => "service"

/-- The pydantic `QuoteLine` model of core/models/quote.py — note that
its field names differ from the keys written by `_hydrate_line`
(`price_cents`, `total_ttc_cent`, ... are *not* fields and are dropped
by validation, pydantic default `extra="ignore"`). -/
structure QuoteLineM where
  item_id : Option String
  item_type : ItemType
  label : String
  description : Option String
  qty : ℚ
  unit_price_ttc_cent : Int
  remise_pct : ℚ
  total_line_ttc_cent : Int
  deriving DecidableEq, Repr

/-- pydantic v2 lax validation of an `Optional[str]` field. -/
def vOptStr : Option Scalar → Except Unit (Option String)
  | Option.none => .ok Option.none
  | some .none => .ok Option.none
  | some (.str s) => .ok (some s)
  | some _ => .error ()

/-- pydantic v2 lax validation of a required `str` field (numbers are
not coerced to strings). -/
def vStrReq : Option Scalar → Except Unit String
  | some (.str s) => .ok s
  | _ => .error ()

/-- pydantic v2 lax validation of an `int` field with a default:
`bool` and `None` are rejected, an integral float and an integer-shaped
string are coerced. -/
def vIntD (dflt : Int) : Option Scalar → Except Unit Int
  | Option.none => .ok dflt
  | some (.int n) => .ok n
  | some (.float q) => if q.den = 1 then .ok q.num else .error ()
  | some (.str s) => match pyIntOfString s with
    | some n => .ok n
    | Option.none => .error ()
  | some _ => .error ()

/-- pydantic v2 lax validation of a `float` field with a default. -/
def vFloatD (dflt : ℚ) : Option Scalar → Except Unit ℚ
  | Option.none => .ok dflt
  | some (.int n) => .ok (n : ℚ)
  | some (.float q) => .ok q
  | some (.str s) => match pyFloatOfString s with
    | some q => .ok q
    | Option.none => .error ()
  | some _ => .error ()

/-- Validation of the `item_type: Literal["product", "service"]` field
(default `"service"`); any other value, in particular the `"item"` tag
written by `_enrich_line_dict`, is a `ValidationError`. -/
def vItemType : Option Scalar → Except Unit ItemType
  | Option.none => .ok .service
  | some (.str s) =>
      if s = "product" then .ok .product
      else if s = "service" then .ok .service
      else .error ()
  | some _ => .error ()

/-- `QuoteLine.model_validate(e)`: validate the eight model fields,
silently dropping every other key. -/
def validateQuoteLine (e : Dict) : Except Unit QuoteLineM := do
  let itemId ← vOptStr (aget? e "item_id")
  let itemType ← vItemType (aget? e "item_type")
  let label ← vStrReq (aget? e "label")
  let description ← vOptStr (aget? e "description")
  let qty ← vFloatD 1 (aget? e "qty")
  let unitPrice ← vIntD 0 (aget? e "unit_price_ttc_cent")
  let remise ← vFloatD 0 (aget? e "remise_pct")
  let totalLine ← vIntD 0 (aget? e "total_line_ttc_cent")
  .ok ⟨itemId, itemType, label, description, qty, unitPrice, remise, totalLine⟩

/-- `QuoteLine.model_dump()`, in field order. -/
def dumpLine (ln : QuoteLineM) : Dict :=
  [("item_id", optStrScalar ln.item_id), ("item_type", .str (itemTypeStr ln.item_type)),
   ("label", .str ln.label), ("description", optStrScalar ln.description),
   ("qty", .float ln.qty), ("unit_price_ttc_cent", .int ln.unit_price_ttc_cent),
   ("remise_pct", .float ln.remise_pct), ("total_line_ttc_cent", .int ln.total_line_ttc_cent)]

/-- `Option α → Except Unit α`, for modelling uncaught exceptions. -/
def exceptOfOption {α : Type} : Option α → Except Unit α
  | some a => .ok a
  | Option.none => .error ()

/-- `((src.get("unit") if src else "") or "")`. -/
def srcUnitFallback : Option CatItem → Scalar
  | some p => Scalar.pyOr (optStrScalar p.unit) (.str "")
  | Option.none => .str ""

/-- `src.get("ref") or src.get("id") or ""`. -/
def srcRefFill (p : CatItem) : Scalar :=
  Scalar.pyOr (optStrScalar p.ref) (Scalar.pyOr (optStrScalar p.id) (.str ""))

/-- `QuoteService._enrich_line_dict`: fill label/unit/description/ref
from the catalog match, compute `price_cents` (line fields first, then
the catalog price when the line yields 0), duplicate it under
`price_cent`, and derive a default `item_type` — `"product"` /
`"service"` from the id fields, else the tag `"item"`. -/
def enrichLineDict (cat : Catalog) (line : Dict) : Except Unit Dict := do
  let src ← findCatalogMatch cat line
  let srcLabel : Scalar := match src with
    | some p => optStrScalar p.label
    | Option.none => .none
  let srcName : Scalar := match src with
    | some p => .str p.name
    | Option.none => .none
  let srcDesc : Scalar := match src with
    | some p => optStrScalar p.description
    | Option.none => .none
  let label := Scalar.pyOr (dgetd line "label") (Scalar.pyOr srcLabel srcName)
  let unit := match aget? line "unit" with
    | some v => if v = .none then srcUnitFallback src else v
    | Option.none => srcUnitFallback src
  let desc := Scalar.pyOr (dgetd line "description")
    (Scalar.pyOr srcDesc (Scalar.pyOr label (.str "")))
  let pc0 := priceToCents line
  let pc := match src with
    | some p => if pc0 = 0 then priceToCents (catItemDump p) else pc0
    | Option.none => pc0
  let out := line
  let out := match src with
    | some p => if ¬ (dgetd out "ref").truthy then aset out "ref" (srcRefFill p) else out
    | Option.none => out
  let out := aset out "label" (Scalar.pyOr label (.str ""))
  let out := aset out "unit" (Scalar.pyOr unit (.str ""))
  let out := aset out "description" (Scalar.pyOr desc (.str ""))
  let out := aset out "price_cents" (.int pc)
  let out := aset out "price_cent" (.int pc)
  let out := if (dgetd out "item_type").truthy then out
    else aset out "item_type" (.str
      (if (dgetd out "product_id").truthy then "product"
       else if (dgetd out "service_id").truthy then "service" else "item"))
  .ok out

/-- `_qty_to_float`: `None`/`""` give 1.0; unparseable values give 1.0;
parsed values are clamped to `≥ 0` (`max(0.0, float(v))`). -/
def qtyToFloat (v : Scalar) : ℚ :=
  if v.isNoneOrEmpty then 1
  else match pyFloatOfScalar v with
    | some q => if Rat.blt q 0 then 0 else q
    | Option.none => 1

/-- `getattr(ln, "total_ttc_cent", 0)`: the pydantic `QuoteLine` of
core/models/quote.py has no `total_ttc_cent` field (the key written by
`_hydrate_line` is dropped by validation), so the `getattr` always
returns the default `0`. -/
def lineGetTotalTtc (_ln : QuoteLineM) : Int := 0

/-- `QuoteService._hydrate_line`: enrich, re-derive the price when both
price keys are 0, normalize `qty`, compute
`total_ttc_cent = int(round(pc * qty))` (and its `total_ht_cent` copy),
then validate into the pydantic `QuoteLine`. -/
def hydrateLine (cat : Catalog) (d : Dict) : Except Unit QuoteLineM := do
  let e ← enrichLineDict cat d
  let pcs ← exceptOfOption (pyIntOfScalar (Scalar.pyOr (dgetd e "price_cents") (.int 0)))
  let pcc ← exceptOfOption (pyIntOfScalar (Scalar.pyOr (dgetd e "price_cent") (.int 0)))
  let e :=
    if pcs = 0 ∧ pcc = 0 then
      let pc := priceToCents d
      if pc ≠ 0 then aset (aset e "price_cents" (.int pc)) "price_cent" (.int pc) else e
    else e
  let qv := match aget? e "qty" with
    | some v => v
    | Option.none => match aget? e "quantity" with
      | some v => v
      | Option.none => .int 1
  let qty := qtyToFloat qv
  let pc ← exceptOfOption (pyIntOfScalar
    (Scalar.pyOr (dgetd e "price_cents") (Scalar.pyOr (dgetd e "price_cent") (.int 0))))
  let e := aset e "qty" (.float qty)
  let tot := pyRound (ratMul ((pc : ℚ)) qty)
  let e := aset e "total_ttc_cent" (.int tot)
  let e := aset e "total_ht_cent" (.int tot)
  validateQuoteLine e

/-! ### Quote documents and `recalc_totals` -/

/-- An element of a quote dict `items` / `lines` / `payments` list:
either a nested dict or a scalar (`_to_dict` of a non-dict scalar gives
`{}`). -/
inductive LineElem where
  | dict (d : Dict)
  | other (s : Scalar)
  deriving DecidableEq, Repr

/-- A value of a top-level quote dict field: a scalar or a list. -/
inductive QVal where
  | sc (s : Scalar)
  | arr (xs : List LineElem)
  deriving DecidableEq, Repr

/-- A raw quote document (a Python dict whose leaves are scalars and
whose list fields hold dicts of scalars). -/
abbrev QuoteDict := List (String × QVal)

/-- `_to_dict(x)` for a list element: a dict is copied, anything else
falls back to `{}`. -/
def elemToDict : LineElem → Dict
  | .dict d => d
  | .other _ => []

/-- `QuoteService._normalize_lines_key`: read `items`, treating an
explicit `None` like an absent key, else `lines`; non-list values give
`[]`; each element goes through `_to_dict`. -/
def normalizeLinesKey (qd : QuoteDict) : List Dict :=
  match aget? qd "items" with
  | some (QVal.arr xs) => xs.map elemToDict
  | some (QVal.sc Scalar.none) =>
      (match aget? qd "lines" with
       | some (QVal.arr ys) => ys.map elemToDict
       | _ => [])
  | some (QVal.sc _) => []
  | Option.none =>
      (match aget? qd "lines" with
       | some (QVal.arr ys) => ys.map elemToDict
       | _ => [])

/-- `QuoteService.recalc_totals` on a plain dict quote: hydrate every
line, sum `getattr(ln, "total_ttc_cent", 0)` over the hydrated pydantic
lines, write the dumped lines back under `items` (or `lines` when only
that key exists) and set `total_ht_cent` / `total_ttc_cent`. -/
def recalcTotalsDict (cat : Catalog) (qd : QuoteDict) : Except Unit QuoteDict := do
  let rawLines := normalizeLinesKey qd
  let lineObjs ← rawLines.mapM (hydrateLine cat)
  let total : Int := (lineObjs.map lineGetTotalTtc).sum
  let linesKey := if ahasKey qd "items" then "items"
    else if ahasKey qd "lines" then "lines" else "items"
  let out := aset qd linesKey (QVal.arr (lineObjs.map (fun ln => .dict (dumpLine ln))))
  let out := aset out "total_ht_cent" (QVal.sc (.int total))
  let out := aset out "total_ttc_cent" (QVal.sc (.int total))
  .ok out

/-- `QuoteStatus`. -/
inductive QuoteStatus where
  | PENDING
  | VALIDATED
  | FINALIZED
  | REFUSED
  deriving DecidableEq, Repr

/-- `PaymentRecord.kind`. -/
inductive PayKind where
  | ACOMPTE
  | SOLDE
  deriving DecidableEq, Repr

/-- The pydantic `PaymentRecord` model (the `at` wall-clock timestamp is
outside the embedding and untouched by the modelled operations). -/
structure PaymentM where
  id : String
  kind : PayKind
  amount_cent : Int
  method : Option String
  invoice_id : Option String
  deriving DecidableEq, Repr

/-- The pydantic `Quote` model of core/models/quote.py (wall-clock
fields `created_at` / `decided_at` are outside the embedding and
untouched by the modelled operations; `event_date` is kept as its ISO
string). -/
structure QuoteM where
  id : String
  number : Option String
  client_id : String
  status : QuoteStatus
  event_date : Option String
  lines : List QuoteLineM
  total_ttc_cent : Int
  payments : List PaymentM
  notes : Option String
  terms : Option String
  deriving DecidableEq, Repr

/-- `QuoteService.recalc_totals` on a pydantic `Quote`: the lines go
through `model_dump` and `_hydrate_line`, the quote object gets the
hydrated lines and `total_ttc_cent := sum(getattr(ln, "total_ttc_cent", 0))`;
the `setattr(quote, "total_ht_cent", total)` raises on this model (no
such field) and is swallowed by its `try`. -/
def recalcTotalsModel (cat : Catalog) (q : QuoteM) : Except Unit QuoteM := do
  let lineObjs ← (q.lines.map dumpLine).mapM (hydrateLine cat)
  let total : Int := (lineObjs.map lineGetTotalTtc).sum
  .ok { q with lines := lineObjs, total_ttc_cent := total }

/-- The empty catalog. -/
def emptyCat : Catalog := ⟨[], []⟩

deriving instance DecidableEq for Except

/-! ### Quote helpers, invoices and the payment workflow
(core/models/quote.py, core/services/invoice_service.py,
core/services/workflow_service.py) -/

/-- `Quote.paid_deposit_cent`: sum of `ACOMPTE` payment amounts. -/
def paidDepositCent (q : QuoteM) : Int :=
  ((q.payments.filter (fun p => p.kind = PayKind.ACOMPTE)).map PaymentM.amount_cent).sum

/-- `Quote.paid_balance_cent`: sum of `SOLDE` payment amounts. -/
def paidBalanceCent (q : QuoteM) : Int :=
  ((q.payments.filter (fun p => p.kind = PayKind.SOLDE)).map PaymentM.amount_cent).sum

/-- `Quote.paid_total_cent`. -/
def paidTotalCent (q : QuoteM) : Int := paidDepositCent q + paidBalanceCent q

/-- `Quote.remaining_cent`: `max(0, total_ttc_cent - paid_total_cent())`. -/
def remainingCent (q : QuoteM) : Int := max 0 (q.total_ttc_cent - paidTotalCent q)

/-- `Invoice.type`. -/
inductive InvType where
  | ACOMPTE
  | SOLDE
  | FINALE
  deriving DecidableEq, Repr

/-- The string tag of an invoice type. -/
def invTypeStr : InvType → String
  | .ACOMPTE => "ACOMPTE"
  | .SOLDE => "SOLDE"
  | .FINALE => "FINALE"

/-- `Invoice.status`. -/
inductive InvStatus where
  | DRAFT
  | ISSUED
  | PAID
  deriving DecidableEq, Repr

/-- The pydantic `InvoiceLine` model (an immutable snapshot). -/
structure InvLineM where
  label : String
  qty : ℚ
  unit_price_ttc_cent : Int
  total_line_ttc_cent : Int
  deriving DecidableEq, Repr

/-- The pydantic `Invoice` model (wall-clock fields omitted, untouched
by the modelled operations). -/
structure InvoiceM where
  id : String
  number : Option String
  type : InvType
  status : InvStatus
  quote_id : String
  client_id : String
  lines : List InvLineM
  total_ttc_cent : Int
  notes : Option String
  deriving DecidableEq, Repr

/-- `f"{x}"` of an `Optional[str]`: `None` prints as `"None"`. -/
def pyStrOfOpt : Option String → String
  | some s => s
  | Option.none => "None"

/-- `InvoiceService.add_invoice`: assign a number from the settings
counter when `inv.number` is falsy, recompute the total as the sum of
the line snapshots, and persist.  Returns the invoice and the updated
settings `numbering` object. -/
def addInvoice (numbering : Dict) (inv : InvoiceM) : InvoiceM × Dict :=
  let needNumber : Bool := match inv.number with
    | some s => s == ""
    | Option.none => true
  let (num, numbering) :=
    if needNumber then
      let (n, nb) := nextInvoiceNumber numbering (invTypeStr inv.type)
      (some n, nb)
    else (inv.number, numbering)
  let total := (inv.lines.map InvLineM.total_line_ttc_cent).sum
  ({ inv with number := num, total_ttc_cent := total }, numbering)

/-- `InvoiceService.gen_deposit` with an explicit amount (the workflow
always passes `explicit_amount`): a one-line `ACOMPTE` invoice over the
amount, `ISSUED`, linked to the quote. -/
def genDeposit (numbering : Dict) (q : QuoteM) (explicitAmount : Int) (invId : String) :
    InvoiceM × Dict :=
  let amount := explicitAmount
  addInvoice numbering
    { id := invId, number := Option.none, type := .ACOMPTE, status := .ISSUED,
      quote_id := q.id, client_id := q.client_id,
      lines := [⟨"Acompte sur devis " ++ pyStrOfOpt q.number, 1, amount, amount⟩],
      total_ttc_cent := amount,
      notes := some "TVA non applicable, art. 293 B du CGI." }

/-- `InvoiceService.gen_balance` with an explicit amount. -/
def genBalance (numbering : Dict) (q : QuoteM) (explicitAmount : Int) (invId : String) :
    InvoiceM × Dict :=
  let amount := explicitAmount
  addInvoice numbering
    { id := invId, number := Option.none, type := .SOLDE, status := .ISSUED,
      quote_id := q.id, client_id := q.client_id,
      lines := [⟨"Solde sur devis " ++ pyStrOfOpt q.number, 1, amount, amount⟩],
      total_ttc_cent := amount,
      notes := some "TVA non applicable, art. 293 B du CGI." }

/-- `InvoiceService.gen_final` (the second, overriding definition):
a zero-amount `FINALE` recap invoice. -/
def genFinal (numbering : Dict) (q : QuoteM) (invId : String) : InvoiceM × Dict :=
  addInvoice numbering
    { id := invId, number := Option.none, type := .FINALE, status := .ISSUED,
      quote_id := q.id, client_id := q.client_id,
      lines := [⟨"Facture finale – Récap devis " ++ pyStrOfOpt q.number, 1, 0, 0⟩],
      total_ttc_cent := 0,
      notes := some "TVA non applicable, art. 293 B du CGI." }

/-- `WorkflowService.record_deposit`: append the `ACOMPTE` payment, set
the status to `VALIDATED`, persist via `update_quote` (which runs
`recalc_totals` on the quote object), generate the deposit invoice,
attach its id to the payment and persist again.  The PDF export and the
accounting-ledger append are external side effects outside this model.
Freshly generated ids are passed in as `payId` / `invId`. -/
def recordDeposit (cat : Catalog) (numbering : Dict) (q : QuoteM) (amount : Int)
    (method : Option String) (payId invId : String) :
    Except Unit (QuoteM × InvoiceM × Dict) := do
  let pay : PaymentM :=
    { id := payId, kind := .ACOMPTE, amount_cent := amount, method := method,
      invoice_id := Option.none }
  let q := { q with payments := q.payments ++ [pay], status := .VALIDATED }
  let q ← recalcTotalsModel cat q
  let (inv, numbering) := genDeposit numbering q amount invId
  let q := { q with payments :=
    q.payments.dropLast ++ [{ pay with invoice_id := some inv.id }] }
  let q ← recalcTotalsModel cat q
  .ok (q, inv, numbering)

/-- `WorkflowService.record_balance`: append the `SOLDE` payment,
persist (`recalc_totals`), generate the balance invoice, attach it,
persist again; when `remaining_cent()` is then `0`, set the status to
`FINALIZED`, persist, and generate the `FINALE` invoice. -/
def recordBalance (cat : Catalog) (numbering : Dict) (q : QuoteM) (amount : Int)
    (method : Option String) (payId invId finalInvId : String) :
    Except Unit (QuoteM × InvoiceM × Option InvoiceM × Dict) := do
  let pay : PaymentM :=
    { id := payId, kind := .SOLDE, amount_cent := amount, method := method,
      invoice_id := Option.none }
  let q := { q with payments := q.payments ++ [pay] }
  let q ← recalcTotalsModel cat q
  let (invS, numbering) := genBalance numbering q amount invId
  let q := { q with payments :=
    q.payments.dropLast ++ [{ pay with invoice_id := some invS.id }] }
  let q ← recalcTotalsModel cat q
  if remainingCent q = 0 then
    let q := { q with status := .FINALIZED }
    let q ← recalcTotalsModel cat q
    let (invF, numbering) := genFinal numbering q finalInvId
    .ok (q, invS, some invF, numbering)
  else
    .ok (q, invS, Option.none, numbering)

example : hydrateLine emptyCat [] = .error () := by decide
example :
    hydrateLine emptyCat
      [("item_type", .str "service"), ("label", .str "A"), ("qty", .int 1),
       ("unit_price_ttc_cent", .int 1000), ("total_line_ttc_cent", .int 123)] =
    .ok ⟨Option.none, .service, "A", some "A", 1, 1000, 0, 123⟩ := by decide

example : nextQuoteNumber 2025 [] = "DV-2025-0001" := by decide
example : nextQuoteNumber 2025 [.str "DV-2025-0041", .none, .str "FAC-1"] = "DV-2025-0042" := by
  decide
example : (nextInvoiceNumber [] "ACOMPTE").1 = "FAC-A-0001" := by decide
example : specNextNumber "FAC-A-" ["FAC-A-0005"] = "FAC-A-0006" := by decide

/-! ## Claim theorems -/

/-- Peel an `Except` success. -/
def exOk? {ε α : Type} : Except ε α → Option α
  | .ok a => some a
  | .error _ => Option.none

/-- The `total_line_ttc_cent` values of the lines of a quote document
(the per-line total field of the pydantic model). -/
def docLineTotals (qd : QuoteDict) : List Int :=
  (normalizeLinesKey qd).map (fun d =>
    match aget? d "total_line_ttc_cent" with
    | some (Scalar.int n) => n
    | _ => 0)

/-- The specification wording of money normalization for a major-unit
string: decimal comma to dot, parse, multiply by 100, round to the
nearest integer, clamp to `≥ 0`. -/
def specNormalizeMajor (s : String) : Option Int :=
  (pyFloatOfString (String.mk (s.toList.map (fun c => if c == ',' then '.' else c)))).map
    (fun d => max 0 (pyRound (ratMul d 100)))

/-- The specification wording of the line-total formula:
`round(unit_price_cents * quantity * (1 - discount_pct / 100))`. -/
def specLineTotal (unitPriceCents : Int) (qty discountPct : ℚ) : Int :=
  pyRound (ratMul (ratMul ((unitPriceCents : ℚ)) qty)
    (ratSub 1 (Rat.divInt discountPct.num ((discountPct.den : Int) * 100))))

/-- C4 counterexample: the claim says a major-unit price is multiplied
by 100 and **rounded to the nearest integer**, but `_price_to_cents`
truncates toward zero (`int(d * 100)`, the comment even says
"arrondi vers 0"): on `{"price_eur": "18.999"}` the code yields 1899
where round-to-nearest yields 1900. -/
theorem C4_money_rounding_counterexample :
    priceToCents [("price_eur", .str "18.999")] = 1899 ∧
    specNormalizeMajor "18.999" = some 1900 ∧ (1899 : Int) ≠ 1900 := by
  decide

/-- C4 amended: money normalization prefers a cents-named field
(`int(...)`, clamped to `≥ 0`); otherwise a major-unit field is cleaned
(currency symbols stripped, decimal comma to dot), parsed as an exact
decimal, multiplied by 100 and **truncated toward zero**, clamped to
`≥ 0`; the four boundary examples hold as claimed (also for the
catalog-service variant, which does round to nearest). -/
theorem C4_money_normalizer_amended :
    (∀ (d : Dict) (n : Int), aget? d "price_cents" = some (.int n) →
        priceToCents d = max 0 n) ∧
    (∀ (d : Dict) (s : String) (q : ℚ),
        aget? d "price_cents" = Option.none → aget? d "price_cent" = Option.none →
        aget? d "price_ttc_cent" = Option.none → aget? d "price_ht_cent" = Option.none →
        aget? d "unit_price_cent" = Option.none → aget? d "unit_price_cents" = Option.none →
        aget? d "price_eur" = some (.str s) → cleanToDecimal (.str s) = some q →
        priceToCents d = max 0 (truncZ (ratMul q 100))) ∧
    priceToCents [("price_eur", .str "18,50")] = 1850 ∧
    priceToCents [("price_cents", .int 1850)] = 1850 ∧
    priceToCents [] = 0 ∧
    priceToCents [("price", .str "abc")] = 0 ∧
    catalogParsePriceToCents [("price_eur", .str "18,50")] = 1850 ∧
    catalogParsePriceToCents [("price_cents", .int 1850)] = 1850 ∧
    catalogParsePriceToCents [] = 0 ∧
    catalogParsePriceToCents [("price", .str "abc")] = 0 := by
  refine ⟨?_, ?_, by decide, by decide, by decide, by decide, by decide, by decide,
    by decide, by decide⟩
  · intro d n h
    simp [priceToCents, centsKeys, firstSome, tryCentsKey, h, Scalar.isNoneOrEmpty,
      pyIntOfScalar]
  · intro d s q h1 h2 h3 h4 h5 h6 he hq
    have hs : s ≠ "" := by
      intro hse
      rw [hse] at hq
      simp [cleanToDecimal] at hq
    simp [priceToCents, centsKeys, euroKeys, firstSome, tryCentsKey, tryEuroKey,
      h1, h2, h3, h4, h5, h6, he, hq, Scalar.isNoneOrEmpty, hs]

/-- Witness for the amended C4 theorem at concrete inputs. -/
theorem C4_money_normalizer_amended_witness :
    priceToCents [("price_cents", .int (-5))] = max 0 (-5) ∧
    priceToCents [("foo", .str "x"), ("price_eur", .str " 18,50 EUR")] =
      max 0 (truncZ (ratMul (mkRat 37 2) 100)) :=
  ⟨C4_money_normalizer_amended.1 _ _ (by decide),
   C4_money_normalizer_amended.2.1 _ " 18,50 EUR" (mkRat 37 2)
     (by decide) (by decide) (by decide) (by decide) (by decide) (by decide)
     (by decide) (by decide)⟩

/-- C7 counterexample: the claim quantifies over every record store,
but `add` of core/storage/repo.py (used by the invoice service) appends
unconditionally: a record whose key already exists is appended without
any duplicate-key error, and a record without a key is persisted without
one being assigned. -/
theorem C7_add_counterexample :
    repoPyAdd [[("id", .str "a")]] [("id", .str "a")] =
      [[("id", .str "a")], [("id", .str "a")]] ∧
    repoPyAdd [] [] = [[]] := by
  decide

/-- C7 amended: `add` of core/storage/json_repo.py assigns the generated
key when the record has none, fails on a (stringified) duplicate key and
otherwise appends and persists; `add` of core/storage/repo.py appends
unconditionally with neither key generation nor duplicate check. -/
theorem C7_add_amended (gid key : String) (data : List Rec) (item : Rec)
    (hg : gid ≠ "") :
    (dgetd (addRecord gid key item) key).truthy = true ∧
    ((∃ d ∈ data, scalarStr (dgetd d key) = scalarStr (dgetd (addRecord gid key item) key)) →
        jsonRepoAdd gid key data item = .error "duplicate key") ∧
    ((∀ d ∈ data, scalarStr (dgetd d key) ≠ scalarStr (dgetd (addRecord gid key item) key)) →
        jsonRepoAdd gid key data item =
          .ok (addRecord gid key item, data ++ [addRecord gid key item])) ∧
    repoPyAdd data item = data ++ [item] := by
  refine ⟨?_, ?_, ?_, rfl⟩
  · unfold addRecord
    by_cases h : (dgetd item key).truthy
    · simpa [h]
    · rw [if_neg h]
      have hv : dgetd (aset item key (.str gid)) key = .str gid := by
        simp [dgetd]
      rw [hv]
      simpa [Scalar.truthy] using hg
  · intro hdup
    have : data.any (fun d =>
        scalarStr (dgetd d key) == scalarStr (dgetd (addRecord gid key item) key)) = true := by
      rw [List.any_eq_true]
      obtain ⟨d, hd, he⟩ := hdup
      exact ⟨d, hd, by simpa using he⟩
    simp [jsonRepoAdd, this]
  · intro hnone
    have : data.any (fun d =>
        scalarStr (dgetd d key) == scalarStr (dgetd (addRecord gid key item) key)) = false := by
      rw [List.any_eq_false]
      intro d hd
      simpa using hnone d hd
    simp [jsonRepoAdd, this]

/-- Witness for the amended C7 theorem: a duplicate id is rejected by
the json_repo store and appended by the repo.py store. -/
theorem C7_add_amended_witness :
    (dgetd (addRecord "u1" "id" [("id", Scalar.str "a")]) "id").truthy = true ∧
    ((∃ d ∈ [[("id", Scalar.str "a")]],
        scalarStr (dgetd d "id") =
          scalarStr (dgetd (addRecord "u1" "id" [("id", Scalar.str "a")]) "id")) →
      jsonRepoAdd "u1" "id" [[("id", Scalar.str "a")]] [("id", Scalar.str "a")] =
        .error "duplicate key") ∧
    ((∀ d ∈ [[("id", Scalar.str "a")]],
        scalarStr (dgetd d "id") ≠
          scalarStr (dgetd (addRecord "u1" "id" [("id", Scalar.str "a")]) "id")) →
      jsonRepoAdd "u1" "id" [[("id", Scalar.str "a")]] [("id", Scalar.str "a")] =
        .ok (addRecord "u1" "id" [("id", Scalar.str "a")],
          [[("id", Scalar.str "a")]] ++ [addRecord "u1" "id" [("id", Scalar.str "a")]])) ∧
    repoPyAdd [[("id", Scalar.str "a")]] [("id", Scalar.str "a")] =
      [[("id", Scalar.str "a")]] ++ [[("id", Scalar.str "a")]] :=
  C7_add_amended "u1" "id" [[("id", Scalar.str "a")]] [("id", Scalar.str "a")] (by decide)

/-- C8 counterexample: for the core/storage/repo.py store, reading a
file with invalid JSON yields the empty collection but *no*
`.corrupt.json` sibling is created, against the claim that the corrupt
original is preserved under a `.corrupt` suffix for every store. -/
theorem C8_corrupt_counterexample :
    repoPyListAll (.invalid "broken json") Option.none = ([], Option.none) ∧
    (Option.none : Option String) ≠ some "broken json" := by
  decide

/-- C8 amended: for the core/storage/json_repo.py store, `list_all()` on
invalid JSON returns the empty sequence and copies the original bytes to
the `.corrupt.json` sibling; the core/storage/repo.py store also returns
the empty sequence but leaves no `.corrupt.json` sibling. -/
theorem C8_corrupt_amended (raw : String) (corrupt : Option String) :
    jsonRepoListAll (.invalid raw) corrupt = ([], some raw) ∧
    repoPyListAll (.invalid raw) corrupt = ([], corrupt) :=
  ⟨rfl, rfl⟩

/-- C2 (code bug): after `recalc_totals` the quote total is **not** the
sum of the line totals.  The hydrated pydantic `QuoteLine` has no
`total_ttc_cent` field, so the computed line totals are dropped
(`getattr` always yields 0) while each dumped line keeps its *input*
`total_line_ttc_cent`: a one-line quote with input line total 123 comes
out with `total_ttc_cent = 0` and line totals summing to 123. -/
theorem C2_total_invariant_violated :
    (exOk? (recalcTotalsDict emptyCat
      [("client_id", .sc (.str "c")),
       ("lines", .arr [.dict
         [("item_type", .str "service"), ("label", .str "A"), ("qty", .int 1),
          ("unit_price_ttc_cent", .int 1000), ("total_line_ttc_cent", .int 123)]]),
       ("total_ttc_cent", .sc (.int 10000))])).map
      (fun out => (aget? out "total_ttc_cent", docLineTotals out)) =
      some (some (.sc (.int 0)), [123]) ∧
    (0 : Int) ≠ 123 := by
  decide

/-- C3 (code bug): reconciliation neither applies the discount
percentage nor writes the recomputed total into the model field: on a
line with unit price 1000, quantity 2, discount 50 % and input total
123, the output line still carries 123, where the claimed formula
`round(1000 * 2 * (1 - 50/100))` gives 1000. -/
theorem C3_line_total_violated :
    (exOk? (recalcTotalsDict emptyCat
      [("lines", .arr [.dict
        [("item_type", .str "service"), ("label", .str "A"), ("qty", .int 2),
         ("unit_price_ttc_cent", .int 1000), ("remise_pct", .int 50),
         ("total_line_ttc_cent", .int 123)]])])).map docLineTotals = some [123] ∧
    specLineTotal 1000 2 50 = 1000 ∧ (123 : Int) ≠ 1000 := by
  decide

/-- C5 (code bug): `recalc_totals` *does* raise.  For a line with no
item type (and no catalog id), `_enrich_line_dict` writes the tag
`"item"`, which the pydantic `QuoteLine` rejects
(`Literal["product", "service"]`), so the hydration raises a
`ValidationError` instead of defaulting. -/
theorem C5_recalc_raises_on_missing_item_type :
    (exOk? (enrichLineDict emptyCat [])).map (fun e => dgetd e "item_type") =
      some (.str "item") ∧
    recalcTotalsDict emptyCat [("lines", .arr [.dict []])] = .error () := by
  decide

/-- The C6 scenario quote: total 10000 cents, one 10000-cent line, no
payments yet. -/
def c6Quote : QuoteM :=
  { id := "q1", number := some "DV-2025-0001", client_id := "c1",
    status := .PENDING, event_date := Option.none,
    lines := [⟨Option.none, .service, "Presta", some "Presta", 1, 10000, 0, 10000⟩],
    total_ttc_cent := 10000, payments := [], notes := Option.none,
    terms := Option.none }

/-- C6 (code bug): recording a 3000-cent deposit with method `"CB"` on a
10000-cent quote does set `VALIDATED`, record the one `ACOMPTE` payment
and issue a linked `ACOMPTE` invoice of 3000 — but the remaining balance
is 0, not 7000: `update_quote` runs `recalc_totals`, which resets
`total_ttc_cent` to 0 (the computed line totals are dropped by the
pydantic line model), so `remaining_cent()` is `max(0, 0 - 3000) = 0`. -/
theorem C6_deposit_workflow_violated :
    (exOk? (recordDeposit emptyCat [] c6Quote 3000 (some "CB") "pay1" "inv1")).map
        (fun r => r.1.status) = some .VALIDATED ∧
    (exOk? (recordDeposit emptyCat [] c6Quote 3000 (some "CB") "pay1" "inv1")).map
        (fun r => r.1.payments.map
          (fun p => (p.kind, p.amount_cent, p.method, p.invoice_id))) =
      some [(.ACOMPTE, 3000, some "CB", some "inv1")] ∧
    (exOk? (recordDeposit emptyCat [] c6Quote 3000 (some "CB") "pay1" "inv1")).map
        (fun r => (r.2.1.type, r.2.1.total_ttc_cent, r.2.1.quote_id)) =
      some (.ACOMPTE, 3000, "q1") ∧
    (exOk? (recordDeposit emptyCat [] c6Quote 3000 (some "CB") "pay1" "inv1")).map
        (fun r => remainingCent r.1) = some 0 ∧
    (0 : Int) ≠ 7000 := by
  refine ⟨by decide, by decide, by decide, by decide, by decide⟩

/-! ### C10: remaining balance -/

theorem sumZeros (l : List QuoteLineM) : (l.map lineGetTotalTtc).sum = 0 := by
  induction l with
  | nil => rfl
  | cons x xs ih => simp [lineGetTotalTtc, ih]

/-- A successful `recalc_totals` on a `Quote` object zeroes the total
(the per-line `getattr` defaults to 0) and leaves every non-line,
non-total field untouched. -/
theorem recalcModel_ok_shape (cat : Catalog) (q q2 : QuoteM)
    (h : recalcTotalsModel cat q = .ok q2) :
    q2.total_ttc_cent = 0 ∧ q2.payments = q.payments ∧ q2.status = q.status ∧
    q2.id = q.id ∧ q2.number = q.number ∧ q2.client_id = q.client_id := by
  unfold recalcTotalsModel at h
  cases hm : (q.lines.map dumpLine).mapM (hydrateLine cat) with
  | error e => rw [hm] at h; simp [Bind.bind, Except.bind] at h
  | ok ls =>
      rw [hm] at h
      simp only [Bind.bind, Except.bind, Except.ok.injEq] at h
      rw [← h]
      simp [sumZeros]

theorem filter_kinds_sum (ps : List PaymentM) :
    ((ps.filter (fun p => p.kind = PayKind.ACOMPTE)).map PaymentM.amount_cent).sum +
      ((ps.filter (fun p => p.kind = PayKind.SOLDE)).map PaymentM.amount_cent).sum =
      (ps.map PaymentM.amount_cent).sum := by
  induction ps with
  | nil => rfl
  | cons p ps ih =>
      cases hk : p.kind <;>
        simp [List.filter_cons, hk, ← ih] <;> omega

theorem paidTotal_eq_sum (q : QuoteM) :
    paidTotalCent q = (q.payments.map PaymentM.amount_cent).sum := by
  unfold paidTotalCent paidDepositCent paidBalanceCent
  exact filter_kinds_sum q.payments

/-- C10: `remaining_cent()` is `max(0, total - sum of all payments)` and
never negative (every payment kind is `ACOMPTE` or `SOLDE`, so the two
kind-filtered sums cover all payments); and an overpayment leaves a
remaining balance of exactly 0, so `record_balance` still takes the
`FINALIZED` transition. -/
theorem C10_remaining_balance :
    (∀ q : QuoteM,
      remainingCent q =
        max 0 (q.total_ttc_cent - (q.payments.map PaymentM.amount_cent).sum) ∧
      0 ≤ remainingCent q) ∧
    (∀ (cat : Catalog) (nb : Dict) (q : QuoteM) (amount : Int)
        (method : Option String) (pid iid fid : String) (q2 : QuoteM)
        (invS : InvoiceM) (invF : Option InvoiceM) (nb2 : Dict),
      0 ≤ q.total_ttc_cent →
      q.total_ttc_cent < (q.payments.map PaymentM.amount_cent).sum + amount →
      recordBalance cat nb q amount method pid iid fid = .ok (q2, invS, invF, nb2) →
      q2.status = .FINALIZED ∧ remainingCent q2 = 0) := by
  constructor
  · intro q
    constructor
    · rw [remainingCent, paidTotal_eq_sum]
    · exact le_max_left 0 _
  · intro cat nb q amount method pid iid fid q2 invS invF nb2 h0 hov h
    unfold recordBalance at h
    dsimp only at h
    cases hA : recalcTotalsModel cat
        { q with payments := q.payments ++
            [{ id := pid, kind := .SOLDE, amount_cent := amount, method := method,
               invoice_id := Option.none }] } with
    | error e => rw [hA] at h; simp [Bind.bind, Except.bind] at h
    | ok qA =>
        rw [hA] at h
        simp only [Bind.bind, Except.bind] at h
        obtain ⟨hAt, hAp, hAs, _, _, _⟩ := recalcModel_ok_shape _ _ _ hA
        cases hg : genBalance nb qA amount iid with
        | mk invS0 nb0 =>
            rw [hg] at h
            dsimp only at h
            cases hB : recalcTotalsModel cat
                { qA with payments := qA.payments.dropLast ++
                    [{ id := pid, kind := .SOLDE, amount_cent := amount, method := method,
                       invoice_id := some invS0.id }] } with
            | error e => rw [hB] at h; simp [Bind.bind, Except.bind] at h
            | ok qC =>
                rw [hB] at h
                simp only [Bind.bind, Except.bind] at h
                obtain ⟨hCt, hCp, hCs, _, _, _⟩ := recalcModel_ok_shape _ _ _ hB
                have hCsum : (qC.payments.map PaymentM.amount_cent).sum =
                    (q.payments.map PaymentM.amount_cent).sum + amount := by
                  rw [hCp]
                  simp only [hAp]
                  rw [List.dropLast_concat]
                  simp
                have hrem : remainingCent qC = 0 := by
                  rw [remainingCent, paidTotal_eq_sum, hCt, hCsum]
                  omega
                rw [if_pos hrem] at h
                cases hD : recalcTotalsModel cat
                    { qC with status := QuoteStatus.FINALIZED } with
                | error e => rw [hD] at h; simp [Bind.bind, Except.bind] at h
                | ok qE =>
                    rw [hD] at h
                    simp only [Bind.bind, Except.bind] at h
                    obtain ⟨hEt, hEp, hEs, _, _, _⟩ := recalcModel_ok_shape _ _ _ hD
                    cases hgf : genFinal nb0 qE fid with
                    | mk invF0 nb1 =>
                        rw [hgf] at h
                        simp only [Except.ok.injEq, Prod.mk.injEq] at h
                        obtain ⟨hq2, _, _, _⟩ := h
                        constructor
                        · rw [← hq2, hEs]
                        · rw [← hq2, remainingCent, paidTotal_eq_sum, hEt, hEp, hCsum]
                          omega

/-- Witness for C10 at a concrete overpaid quote (total 100, balance
payment 200): both conjuncts applied concretely. -/
theorem C10_remaining_balance_witness :
    (remainingCent
        { id := "q", number := Option.none, client_id := "c", status := .VALIDATED,
          event_date := Option.none, lines := [], total_ttc_cent := 100,
          payments := [], notes := Option.none, terms := Option.none } =
      max 0 ((100 : Int) - 0) ∧
     (0 : Int) ≤ remainingCent
        { id := "q", number := Option.none, client_id := "c", status := .VALIDATED,
          event_date := Option.none, lines := [], total_ttc_cent := 100,
          payments := [], notes := Option.none, terms := Option.none }) ∧
    ({ id := "q", number := Option.none, client_id := "c",
       status := QuoteStatus.FINALIZED, event_date := Option.none,
       lines := ([] : List QuoteLineM), total_ttc_cent := (0 : Int),
       payments := [{ id := "p1", kind := PayKind.SOLDE, amount_cent := (200 : Int),
                      method := Option.none, invoice_id := some "i1" }],
       notes := Option.none, terms := Option.none } : QuoteM).status = .FINALIZED ∧
    remainingCent
      { id := "q", number := Option.none, client_id := "c",
        status := QuoteStatus.FINALIZED, event_date := Option.none,
        lines := [], total_ttc_cent := 0,
        payments := [{ id := "p1", kind := PayKind.SOLDE, amount_cent := 200,
                       method := Option.none, invoice_id := some "i1" }],
        notes := Option.none, terms := Option.none } = 0 := by
  have h1 := C10_remaining_balance.1
    { id := "q", number := Option.none, client_id := "c", status := .VALIDATED,
      event_date := Option.none, lines := [], total_ttc_cent := 100,
      payments := [], notes := Option.none, terms := Option.none }
  have h2 := C10_remaining_balance.2 emptyCat []
    { id := "q", number := Option.none, client_id := "c", status := .VALIDATED,
      event_date := Option.none, lines := [], total_ttc_cent := 100,
      payments := [], notes := Option.none, terms := Option.none }
    200 Option.none "p1" "i1" "f1"
    { id := "q", number := Option.none, client_id := "c",
      status := QuoteStatus.FINALIZED, event_date := Option.none,
      lines := [], total_ttc_cent := 0,
      payments := [{ id := "p1", kind := PayKind.SOLDE, amount_cent := 200,
                     method := Option.none, invoice_id := some "i1" }],
      notes := Option.none, terms := Option.none }
    { id := "i1", number := some "FAC-S-0001", type := .SOLDE, status := .ISSUED,
      quote_id := "q", client_id := "c",
      lines := [⟨"Solde sur devis None", 1, 200, 200⟩], total_ttc_cent := 200,
      notes := some "TVA non applicable, art. 293 B du CGI." }
    (some { id := "f1", number := some "FAC-F-0001", type := .FINALE,
            status := .ISSUED, quote_id := "q", client_id := "c",
            lines := [⟨"Facture finale – Récap devis None", 1, 0, 0⟩],
            total_ttc_cent := 0,
            notes := some "TVA non applicable, art. 293 B du CGI." })
    [("invoice_seq_S", .int 2), ("invoice_seq_F", .int 2)]
    (by decide) (by decide) (by decide)
  exact ⟨by simpa using h1, h2⟩

/-! ### C9: number generation lemmas -/

theorem digitChar_isDigit (d : Nat) (h : d < 10) : (digitChar d).isDigit = true := by
  interval_cases d <;> decide

theorem digitChar_toNat (d : Nat) (h : d < 10) : (digitChar d).toNat = 48 + d := by
  interval_cases d <;> decide

theorem digitsToNat_concat (l : List Char) (c : Char) :
    digitsToNat (l ++ [c]) = digitsToNat l * 10 + (c.toNat - 48) := by
  simp [digitsToNat, List.foldl_append]

theorem natDigitsAux_spec (fuel : Nat) : ∀ n < fuel,
    allDigits (natDigitsAux fuel n) = true ∧ natDigitsAux fuel n ≠ [] ∧
    digitsToNat (natDigitsAux fuel n) = n := by
  induction fuel with
  | zero => intro n hn; omega
  | succ f ih =>
      intro n hn
      by_cases h10 : n < 10
      · simp only [natDigitsAux, if_pos h10]
        refine ⟨?_, by simp, ?_⟩
        · simp [allDigits, digitChar_isDigit n h10]
        · simp [digitsToNat, digitChar_toNat n h10]
      · have hrec : n / 10 < f := by omega
        obtain ⟨ha, hne, hv⟩ := ih (n / 10) hrec
        simp only [natDigitsAux, if_neg h10]
        refine ⟨?_, by simp, ?_⟩
        · simp only [allDigits, List.all_append] at ha ⊢
          simp [ha, digitChar_isDigit (n % 10) (by omega)]
        · rw [digitsToNat_concat, hv, digitChar_toNat (n % 10) (by omega)]
          omega

theorem natDigits_spec (n : Nat) :
    allDigits (natDigits n) = true ∧ natDigits n ≠ [] ∧
    digitsToNat (natDigits n) = n :=
  natDigitsAux_spec (n + 1) n (by omega)

theorem digitsToNat_replicate_zero_append (m : Nat) (ds : List Char) :
    digitsToNat (List.replicate m '0' ++ ds) = digitsToNat ds := by
  induction m with
  | zero => simp
  | succ k ih => simpa [digitsToNat, List.replicate_succ] using ih

theorem pad4_spec (n : Nat) :
    allDigits (pad4 n) = true ∧ pad4 n ≠ [] ∧ digitsToNat (pad4 n) = n := by
  obtain ⟨ha, hne, hv⟩ := natDigits_spec n
  refine ⟨?_, ?_, ?_⟩
  · simp only [pad4, allDigits, List.all_append, Bool.and_eq_true]
    constructor
    · simp +contextual [List.mem_replicate]
    · simpa [allDigits] using ha
  · simp [pad4, hne]
  · rw [pad4, digitsToNat_replicate_zero_append, hv]

theorem isPySpace_of_isDigit (c : Char) (h : c.isDigit = true) :
    isPySpace c = false := by
  by_contra hc
  simp only [isPySpace, Bool.not_eq_false, Bool.or_eq_true, beq_iff_eq] at hc
  rcases hc with ((((h1 | h1) | h1) | h1) | h1) | h1 <;>
    (subst h1; exact absurd h (by decide))

theorem stripChars_of_digits (cs : List Char) (h : allDigits cs = true) :
    stripChars cs = cs := by
  have hall : ∀ c ∈ cs, isPySpace c = false := by
    intro c hc
    exact isPySpace_of_isDigit c (by
      simp only [allDigits, List.all_eq_true] at h
      exact h c hc)
  have h1 : cs.dropWhile isPySpace = cs := by
    cases cs with
    | nil => rfl
    | cons c t => rw [List.dropWhile_cons_of_neg (by simp [hall c (by simp)])]
  have h2 : cs.reverse.dropWhile isPySpace = cs.reverse := by
    cases hr : cs.reverse with
    | nil => rfl
    | cons c t =>
        rw [List.dropWhile_cons_of_neg]
        simp only [Bool.not_eq_true]
        apply hall
        have : c ∈ cs.reverse := by rw [hr]; simp
        simpa using this
  rw [stripChars, h1, h2, List.reverse_reverse]

theorem parseSignedDigits_all (cs : List Char) (h1 : allDigits cs = true)
    (h2 : cs ≠ []) : parseSignedDigits cs = some ((digitsToNat cs : Int)) := by
  cases cs with
  | nil => exact absurd rfl h2
  | cons c t =>
      have hc : c.isDigit = true := by
        simp only [allDigits, List.all_eq_true] at h1
        exact h1 c (by simp)
      have hminus : c ≠ '-' := by
        intro e; rw [e] at hc; exact absurd hc (by decide)
      have hplus : c ≠ '+' := by
        intro e; rw [e] at hc; exact absurd hc (by decide)
      unfold parseSignedDigits
      split
      case _ rest heq =>
        injection heq with hh ht
        exact absurd hh hminus
      case _ rest heq =>
        injection heq with hh ht
        exact absurd hh hplus
      case _ => rw [if_pos ⟨h2, h1⟩]

theorem pyIntOfString_digits (cs : List Char) (h1 : allDigits cs = true)
    (h2 : cs ≠ []) : pyIntOfString (String.mk cs) = some ((digitsToNat cs : Int)) := by
  rw [pyIntOfString]
  have : (String.mk cs).toList = cs := rfl
  rw [this, stripChars_of_digits cs h1, parseSignedDigits_all cs h1 h2]

theorem removeAllAux_no_occur (pat : List Char) (x : Char) (hx : x ∈ pat) :
    ∀ (fuel : Nat) (s : List Char), s.length ≤ fuel → x ∉ s →
      removeAllAux pat fuel s = s := by
  intro fuel
  induction fuel with
  | zero => intro s _ _; rfl
  | succ f ih =>
      intro s hlen hnx
      cases s with
      | nil => rfl
      | cons c rest =>
          have hpre : ¬ (pat ≠ [] ∧ pat.isPrefixOf (c :: rest) = true) := by
            rintro ⟨-, hp⟩
            have : pat <+: c :: rest := List.isPrefixOf_iff_prefix.mp hp
            exact hnx (this.subset hx)
          have hstep : removeAllAux pat (f + 1) (c :: rest) =
              if pat ≠ [] ∧ pat.isPrefixOf (c :: rest) = true then
                removeAllAux pat f (rest.drop (pat.length - 1))
              else c :: removeAllAux pat f rest := rfl
          rw [hstep, if_neg hpre]
          congr 1
          apply ih
          · simpa using Nat.le_of_succ_le_succ hlen
          · intro hmem
            exact hnx (by simp [hmem])

theorem removeAll_append_of_no_occur (p0 : Char) (pt s : List Char) (x : Char)
    (hx : x ∈ p0 :: pt) (hnx : x ∉ s) :
    removeAll (p0 :: pt) ((p0 :: pt) ++ s) = s := by
  rw [removeAll]
  have hpre : (p0 :: pt).isPrefixOf ((p0 :: pt) ++ s) = true :=
    List.isPrefixOf_iff_prefix.mpr (List.prefix_append _ _)
  have hstep : removeAllAux (p0 :: pt) ((pt ++ s).length + 1) (p0 :: (pt ++ s)) =
      if (p0 :: pt) ≠ [] ∧ (p0 :: pt).isPrefixOf (p0 :: (pt ++ s)) = true then
        removeAllAux (p0 :: pt) ((pt ++ s).length)
          ((pt ++ s).drop ((p0 :: pt).length - 1))
      else p0 :: removeAllAux (p0 :: pt) ((pt ++ s).length) (pt ++ s) := rfl
  have hlen : ((p0 :: pt) ++ s).length = (pt ++ s).length + 1 := by simp
  have hform : (p0 :: pt) ++ s = p0 :: (pt ++ s) := rfl
  rw [hform] at hpre ⊢
  rw [show (p0 :: (pt ++ s)).length = (pt ++ s).length + 1 from by simp]
  rw [hstep, if_pos ⟨by simp, hpre⟩]
  have hdrop : (pt ++ s).drop ((p0 :: pt).length - 1) = s := by
    simp only [List.length_cons, Nat.add_sub_cancel]
    exact List.drop_left pt s
  rw [hdrop]
  exact removeAllAux_no_occur _ x hx _ s (by simp) hnx

theorem strToList_append (a b : String) : (a ++ b).toList = a.toList ++ b.toList :=
  String.data_append a b

theorem quotePfx_toList (year : Nat) :
    (quotePfx year).toList = 'D' :: 'V' :: '-' :: (natDigits year ++ ['-']) := by
  rw [quotePfx, strToList_append, strToList_append]
  rfl

theorem upperD_not_in_pad4 (k : Nat) : 'D' ∉ pad4 k := by
  obtain ⟨ha, -, -⟩ := pad4_spec k
  intro hmem
  simp only [allDigits, List.all_eq_true] at ha
  exact absurd (ha 'D' hmem) (by decide)

/-- Parsing one generated number back: the scan step applied to a
document numbered `quotePfx year ++ pad4Str k` yields `max`. -/
theorem quoteScanStep_generated (year : Nat) (m : Int) (k : Nat) :
    quoteScanStep year m (.str (quotePfx year ++ pad4Str k)) =
      if m < (k : Int) then (k : Int) else m := by
  have hnempty : (quotePfx year ++ pad4Str k) ≠ "" := by
    intro he
    have : (quotePfx year ++ pad4Str k).toList = [] := by rw [he]; rfl
    rw [strToList_append, quotePfx_toList] at this
    simp at this
  have htl : (quotePfx year ++ pad4Str k).toList =
      (quotePfx year).toList ++ pad4 k := by
    rw [strToList_append]
    rfl
  have hpre : (quotePfx year).toList.isPrefixOf
      (quotePfx year ++ pad4Str k).toList = true := by
    rw [htl]
    exact List.isPrefixOf_iff_prefix.mpr (List.prefix_append _ _)
  have hrem : removeAll (quotePfx year).toList (quotePfx year ++ pad4Str k).toList =
      pad4 k := by
    rw [htl, quotePfx_toList]
    exact removeAll_append_of_no_occur _ _ _ 'D' (by simp) (upperD_not_in_pad4 k)
  obtain ⟨ha, hne, hv⟩ := pad4_spec k
  rw [quoteScanStep]
  simp only [Scalar.pyOr, Scalar.truthy]
  rw [if_pos (by simpa using hnempty)]
  dsimp only
  rw [if_pos hpre, hrem, pyIntOfString_digits _ ha hne, hv]

theorem quoteScanStep_ge (year : Nat) (m : Int) (v : Scalar) :
    m ≤ quoteScanStep year m v := by
  rw [quoteScanStep]
  rcases v.pyOr (.str "") with _ | b | n | q | s
  · exact le_refl m
  · exact le_refl m
  · exact le_refl m
  · exact le_refl m
  · dsimp only
    split
    · rcases pyIntOfString
        (String.mk (removeAll (quotePfx year).toList s.toList)) with _ | n
      · exact le_refl m
      · dsimp only
        split <;> omega
    · exact le_refl m

theorem quoteMaxSuffix_nonneg (year : Nat) (docs : List Scalar) :
    0 ≤ quoteMaxSuffix year docs := by
  rw [quoteMaxSuffix]
  have : ∀ (l : List Scalar) (init : Int), init ≤ l.foldl (quoteScanStep year) init := by
    intro l
    induction l with
    | nil => intro init; simp
    | cons v t ih =>
        intro init
        calc init ≤ quoteScanStep year init v := quoteScanStep_ge year init v
          _ ≤ t.foldl (quoteScanStep year) (quoteScanStep year init v) := ih _
  exact this docs 0

theorem quoteMaxSuffix_append_generated (year : Nat) (docs : List Scalar) (k : Nat) :
    quoteMaxSuffix year (docs ++ [.str (quotePfx year ++ pad4Str k)]) =
      if quoteMaxSuffix year docs < (k : Int) then (k : Int)
      else quoteMaxSuffix year docs := by
  rw [quoteMaxSuffix, List.foldl_append]
  simp only [List.foldl_cons, List.foldl_nil]
  exact quoteScanStep_generated year _ k

/-- C9 amended, quote part: allocating `n` numbers in sequence for the
current year yields the gapless, strictly increasing suffixes
`max existing + 1, ..., max existing + n`. -/
theorem allocQuoteNumbers_spec (year : Nat) (docs : List Scalar) (n : Nat) :
    allocQuoteNumbers year docs n =
      (List.range n).map (fun i =>
        quotePfx year ++ pad4Str ((quoteMaxSuffix year docs).toNat + 1 + i)) := by
  induction n generalizing docs with
  | zero => rfl
  | succ n ih =>
      have hm := quoteMaxSuffix_nonneg year docs
      have hx : nextQuoteNumber year docs =
          quotePfx year ++ pad4Str ((quoteMaxSuffix year docs).toNat + 1) := by
        rw [nextQuoteNumber]
        congr 1
        congr 1
        omega
      rw [allocQuoteNumbers, hx, ih]
      have hnewmax : quoteMaxSuffix year
          (docs ++ [.str (quotePfx year ++ pad4Str ((quoteMaxSuffix year docs).toNat + 1))]) =
          ((quoteMaxSuffix year docs).toNat + 1 : Nat) := by
        rw [quoteMaxSuffix_append_generated]
        rw [if_pos (by omega)]
      rw [hnewmax]
      rw [List.range_succ_eq_map]
      simp only [List.map_cons, List.map_map, Nat.add_zero]
      congr 1
      apply List.map_congr_left
      intro i _
      simp only [Function.comp_apply]
      congr 2
      omega

/-- C9 counterexample: invoice number allocation does *not* scan
existing documents — it reads a counter from the settings `numbering`
object: with a fresh settings object and an existing invoice numbered
`FAC-A-0005`, the code allocates `FAC-A-0001` where the claimed
scan-max-plus-one algorithm yields `FAC-A-0006`. -/
theorem C9_numbering_counterexample :
    (nextInvoiceNumber [] "ACOMPTE").1 = "FAC-A-0001" ∧
    specNextNumber "FAC-A-" ["FAC-A-0005"] = "FAC-A-0006" ∧
    ("FAC-A-0001" : String) ≠ "FAC-A-0006" := by
  decide

/-- C9 amended: quote numbers are allocated by scanning the existing
numbers for the year prefix and taking the maximum parsed suffix plus
one, zero-padded; allocating `n` numbers in sequence yields the gapless
strictly increasing suffixes `max + 1, ..., max + n`.  Invoice numbers
instead come from a per-type counter in the settings `numbering` object
(default 1), which is formatted and then incremented — existing
documents are ignored. -/
theorem C9_numbering_amended :
    (∀ (year : Nat) (docs : List Scalar) (n : Nat),
      allocQuoteNumbers year docs n =
        (List.range n).map (fun i =>
          quotePfx year ++ pad4Str ((quoteMaxSuffix year docs).toNat + 1 + i))) ∧
    (∀ (nb : Dict) (t : String) (k : Int), 0 ≤ k →
      aget? nb "invoice_prefix" = Option.none →
      aget? nb ("invoice_seq_" ++ invTypeCode t) = some (.int k) →
      nextInvoiceNumber nb t =
        ("FAC-" ++ invTypeCode t ++ "-" ++ pad4Str k.toNat,
         aset nb ("invoice_seq_" ++ invTypeCode t) (.int (k + 1)))) := by
  refine ⟨allocQuoteNumbers_spec, ?_⟩
  intro nb t k hk h1 h2
  simp only [nextInvoiceNumber, h1, h2]

/-- Witness for the amended C9 theorem: two sequential quote numbers
after `DV-2025-0041`, and one invoice counter increment from 7. -/
theorem C9_numbering_amended_witness :
    allocQuoteNumbers 2025 [Scalar.str "DV-2025-0041"] 2 =
      (List.range 2).map (fun i =>
        quotePfx 2025 ++
          pad4Str ((quoteMaxSuffix 2025 [Scalar.str "DV-2025-0041"]).toNat + 1 + i)) ∧
    nextInvoiceNumber [("invoice_seq_A", Scalar.int 7)] "ACOMPTE" =
      ("FAC-" ++ invTypeCode "ACOMPTE" ++ "-" ++ pad4Str (7 : Int).toNat,
       aset [("invoice_seq_A", Scalar.int 7)] ("invoice_seq_" ++ invTypeCode "ACOMPTE")
         (Scalar.int (7 + 1))) :=
  ⟨C9_numbering_amended.1 2025 [Scalar.str "DV-2025-0041"] 2,
   C9_numbering_amended.2 [("invoice_seq_A", Scalar.int 7)] "ACOMPTE" 7
     (by decide) (by decide) (by decide)⟩

/-! ### C1: idempotence of `recalc_totals`

The invariant below holds of every line that survives hydration, and is
exactly what makes a second hydration of its `model_dump` the
identity. -/

/-- The image invariant of `_hydrate_line`: quantity clamped to `≥ 0`,
description filled with an actual string, and an empty description only
alongside an empty label. -/
def LineInv (ln : QuoteLineM) : Prop :=
  0 ≤ ln.qty ∧ ln.description.isSome ∧ (ln.description = some "" → ln.label = "")

theorem aget?_dump_item_id (ln : QuoteLineM) :
    aget? (dumpLine ln) "item_id" = some (optStrScalar ln.item_id) := rfl

theorem aget?_dump_item_type (ln : QuoteLineM) :
    aget? (dumpLine ln) "item_type" = some (.str (itemTypeStr ln.item_type)) := rfl

theorem aget?_dump_label (ln : QuoteLineM) :
    aget? (dumpLine ln) "label" = some (.str ln.label) := rfl

theorem aget?_dump_description (ln : QuoteLineM) :
    aget? (dumpLine ln) "description" = some (optStrScalar ln.description) := rfl

theorem aget?_dump_qty (ln : QuoteLineM) :
    aget? (dumpLine ln) "qty" = some (.float ln.qty) := rfl

theorem aget?_dump_unit_price (ln : QuoteLineM) :
    aget? (dumpLine ln) "unit_price_ttc_cent" = some (.int ln.unit_price_ttc_cent) := rfl

theorem aget?_dump_remise (ln : QuoteLineM) :
    aget? (dumpLine ln) "remise_pct" = some (.float ln.remise_pct) := rfl

theorem aget?_dump_total_line (ln : QuoteLineM) :
    aget? (dumpLine ln) "total_line_ttc_cent" = some (.int ln.total_line_ttc_cent) := rfl

theorem aget?_dump_product_id (ln : QuoteLineM) :
    aget? (dumpLine ln) "product_id" = Option.none := rfl

theorem aget?_dump_service_id (ln : QuoteLineM) :
    aget? (dumpLine ln) "service_id" = Option.none := rfl

theorem aget?_dump_ref (ln : QuoteLineM) :
    aget? (dumpLine ln) "ref" = Option.none := rfl

theorem aget?_dump_name (ln : QuoteLineM) :
    aget? (dumpLine ln) "name" = Option.none := rfl

theorem aget?_dump_unit (ln : QuoteLineM) :
    aget? (dumpLine ln) "unit" = Option.none := rfl

theorem pyOr_of_truthy (a b : Scalar) (h : a.truthy = true) : Scalar.pyOr a b = a := by
  rw [Scalar.pyOr, if_pos h]

theorem pyOr_of_falsy (a b : Scalar) (h : a.truthy = false) : Scalar.pyOr a b = b := by
  rw [Scalar.pyOr, if_neg (by simp [h])]

theorem truthy_str (s : String) : (Scalar.str s).truthy = !(s == "") := by
  rfl

theorem itemTypeStr_ne_empty (t : ItemType) : itemTypeStr t ≠ "" := by
  cases t <;> decide

theorem qtyToFloat_nonneg (v : Scalar) : 0 ≤ qtyToFloat v := by
  rw [qtyToFloat]
  split
  · exact zero_le_one
  · split
    · split
      · exact le_refl 0
      · rename_i hlt
        exact not_lt.mp hlt
    · exact zero_le_one

theorem qtyToFloat_float_of_nonneg (q : ℚ) (h : 0 ≤ q) :
    qtyToFloat (.float q) = q := by
  rw [qtyToFloat]
  have h1 : (Scalar.float q).isNoneOrEmpty = false := rfl
  rw [if_neg (by simp [h1])]
  have h2 : pyFloatOfScalar (.float q) = some q := rfl
  rw [h2]
  have h3 : Rat.blt q 0 = false := by
    rw [← Bool.not_eq_true]
    exact fun hb => absurd hb (not_lt.mpr h)
  simp [h3]

/-- `pyOr x (.str "")` is never `None`. -/
theorem pyOr_emptystr_ne_none (a : Scalar) : Scalar.pyOr a (.str "") ≠ .none := by
  rw [Scalar.pyOr]
  split
  · intro he
    rename_i ht
    rw [he] at ht
    exact absurd ht (by decide)
  · intro he
    exact absurd he (by decide)

/-- On a dumped line, `_find_catalog_match` never raises, and finds
nothing when the label is empty (the dump has no id, ref or name
keys). -/
theorem findCatalogMatch_dump (cat : Catalog) (ln : QuoteLineM) :
    ∃ src : Option CatItem,
      findCatalogMatch cat (dumpLine ln) = .ok src ∧
      (ln.label = "" → src = Option.none) := by
  rw [findCatalogMatch]
  have hpid : dgetd (dumpLine ln) "product_id" = .none := by
    rw [dgetd, aget?_dump_product_id]; rfl
  have hsid : dgetd (dumpLine ln) "service_id" = .none := by
    rw [dgetd, aget?_dump_service_id]; rfl
  have href : dgetd (dumpLine ln) "ref" = .none := by
    rw [dgetd, aget?_dump_ref]; rfl
  rw [hpid, hsid, href]
  have hor : Scalar.pyOr Scalar.none (.str "") = .str "" := rfl
  rw [hor]
  have htr : (Scalar.str "").truthy = false := rfl
  simp only [htr, Bool.false_eq_true, if_false]
  rw [if_neg (by simp [stripChars])]
  rw [findByLabel]
  have hlab : dgetd (dumpLine ln) "label" = .str ln.label := by
    rw [dgetd, aget?_dump_label]; rfl
  have hnam : dgetd (dumpLine ln) "name" = .none := by
    rw [dgetd, aget?_dump_name]; rfl
  rw [hlab, hnam, hor]
  by_cases hl : ln.label = ""
  · rw [hl]
    refine ⟨Option.none, ?_, fun _ => rfl⟩
    rw [pyOr_of_falsy _ _ (by decide)]
    simp [stripChars]
  · rw [pyOr_of_truthy _ _ (by rw [truthy_str]; simpa using hl)]
    dsimp only
    split
    · split
      · exact ⟨_, rfl, fun he => absurd he hl⟩
      · split
        · exact ⟨_, rfl, fun he => absurd he hl⟩
        · exact ⟨Option.none, rfl, fun _ => rfl⟩
    · exact ⟨Option.none, rfl, fun _ => rfl⟩

theorem truthy_itemTypeStr (t : ItemType) :
    (Scalar.str (itemTypeStr t)).truthy = true := by
  cases t <;> decide

theorem itemTypeStr_eq_empty_eq_false (t : ItemType) :
    (itemTypeStr t = "") = False := by
  simp [itemTypeStr_ne_empty t]

/-- `_enrich_line_dict` on a dumped line: the eight model keys read back
unchanged (using the `LineInv` corner cases), and the two price keys
hold a common value that is 0 only when the price normalization of
the line itself is 0. -/
theorem enrichLineDict_dump (cat : Catalog) (ln : QuoteLineM) (ds : String)
    (hdss : ln.description = some ds) (hde : ds = "" → ln.label = "") :
    ∃ (e : Dict),
      enrichLineDict cat (dumpLine ln) = .ok e ∧
      aget? e "item_id" = some (optStrScalar ln.item_id) ∧
      aget? e "item_type" = some (.str (itemTypeStr ln.item_type)) ∧
      aget? e "label" = some (.str ln.label) ∧
      aget? e "description" = some (.str ds) ∧
      aget? e "qty" = some (.float ln.qty) ∧
      aget? e "unit_price_ttc_cent" = some (.int ln.unit_price_ttc_cent) ∧
      aget? e "remise_pct" = some (.float ln.remise_pct) ∧
      aget? e "total_line_ttc_cent" = some (.int ln.total_line_ttc_cent) ∧
      ∃ pc : Int, aget? e "price_cents" = some (.int pc) ∧
        aget? e "price_cent" = some (.int pc) ∧
        (pc = 0 → priceToCents (dumpLine ln) = 0) := by
  obtain ⟨src, hsrc, hsrcnone⟩ := findCatalogMatch_dump cat ln
  rw [enrichLineDict, hsrc]
  simp only [Bind.bind, Except.bind]
  rcases src with _ | p
  · refine ⟨_, rfl, ?_, ?_, ?_, ?_, ?_, ?_, ?_, ?_, ?_⟩
    · simp +decide [dgetd, aget?_aset_ne, aget?_aset_self, aget?_dump_item_id, aget?_dump_item_type,
        aget?_dump_label, aget?_dump_description, aget?_dump_qty, aget?_dump_unit_price,
        aget?_dump_remise, aget?_dump_total_line, aget?_dump_product_id,
        aget?_dump_service_id, aget?_dump_ref, aget?_dump_name, aget?_dump_unit,
        Scalar.pyOr, Scalar.truthy, optStrScalar, srcUnitFallback,
        itemTypeStr_eq_empty_eq_false]
    · simp +decide [dgetd, aget?_aset_ne, aget?_aset_self, aget?_dump_item_id, aget?_dump_item_type,
        aget?_dump_label, aget?_dump_description, aget?_dump_qty, aget?_dump_unit_price,
        aget?_dump_remise, aget?_dump_total_line, aget?_dump_product_id,
        aget?_dump_service_id, aget?_dump_ref, aget?_dump_name, aget?_dump_unit,
        Scalar.pyOr, Scalar.truthy, optStrScalar, srcUnitFallback,
        itemTypeStr_eq_empty_eq_false]
    · by_cases hl : ln.label = "" <;> simp +decide [dgetd, aget?_aset_ne, aget?_aset_self, aget?_dump_item_id, aget?_dump_item_type,
        aget?_dump_label, aget?_dump_description, aget?_dump_qty, aget?_dump_unit_price,
        aget?_dump_remise, aget?_dump_total_line, aget?_dump_product_id,
        aget?_dump_service_id, aget?_dump_ref, aget?_dump_name, aget?_dump_unit,
        Scalar.pyOr, Scalar.truthy, optStrScalar, srcUnitFallback,
        itemTypeStr_eq_empty_eq_false, hl]
    · by_cases hd : ds = ""
      · have hl := hde hd
        simp +decide [dgetd, aget?_aset_ne, aget?_aset_self, aget?_dump_item_id, aget?_dump_item_type,
        aget?_dump_label, aget?_dump_description, aget?_dump_qty, aget?_dump_unit_price,
        aget?_dump_remise, aget?_dump_total_line, aget?_dump_product_id,
        aget?_dump_service_id, aget?_dump_ref, aget?_dump_name, aget?_dump_unit,
        Scalar.pyOr, Scalar.truthy, optStrScalar, srcUnitFallback,
        itemTypeStr_eq_empty_eq_false, hdss, hd, hl]
      · simp +decide [dgetd, aget?_aset_ne, aget?_aset_self, aget?_dump_item_id, aget?_dump_item_type,
        aget?_dump_label, aget?_dump_description, aget?_dump_qty, aget?_dump_unit_price,
        aget?_dump_remise, aget?_dump_total_line, aget?_dump_product_id,
        aget?_dump_service_id, aget?_dump_ref, aget?_dump_name, aget?_dump_unit,
        Scalar.pyOr, Scalar.truthy, optStrScalar, srcUnitFallback,
        itemTypeStr_eq_empty_eq_false, hdss, hd]
    · simp +decide [dgetd, aget?_aset_ne, aget?_aset_self, aget?_dump_item_id, aget?_dump_item_type,
        aget?_dump_label, aget?_dump_description, aget?_dump_qty, aget?_dump_unit_price,
        aget?_dump_remise, aget?_dump_total_line, aget?_dump_product_id,
        aget?_dump_service_id, aget?_dump_ref, aget?_dump_name, aget?_dump_unit,
        Scalar.pyOr, Scalar.truthy, optStrScalar, srcUnitFallback,
        itemTypeStr_eq_empty_eq_false]
    · simp +decide [dgetd, aget?_aset_ne, aget?_aset_self, aget?_dump_item_id, aget?_dump_item_type,
        aget?_dump_label, aget?_dump_description, aget?_dump_qty, aget?_dump_unit_price,
        aget?_dump_remise, aget?_dump_total_line, aget?_dump_product_id,
        aget?_dump_service_id, aget?_dump_ref, aget?_dump_name, aget?_dump_unit,
        Scalar.pyOr, Scalar.truthy, optStrScalar, srcUnitFallback,
        itemTypeStr_eq_empty_eq_false]
    · simp +decide [dgetd, aget?_aset_ne, aget?_aset_self, aget?_dump_item_id, aget?_dump_item_type,
        aget?_dump_label, aget?_dump_description, aget?_dump_qty, aget?_dump_unit_price,
        aget?_dump_remise, aget?_dump_total_line, aget?_dump_product_id,
        aget?_dump_service_id, aget?_dump_ref, aget?_dump_name, aget?_dump_unit,
        Scalar.pyOr, Scalar.truthy, optStrScalar, srcUnitFallback,
        itemTypeStr_eq_empty_eq_false]
    · simp +decide [dgetd, aget?_aset_ne, aget?_aset_self, aget?_dump_item_id, aget?_dump_item_type,
        aget?_dump_label, aget?_dump_description, aget?_dump_qty, aget?_dump_unit_price,
        aget?_dump_remise, aget?_dump_total_line, aget?_dump_product_id,
        aget?_dump_service_id, aget?_dump_ref, aget?_dump_name, aget?_dump_unit,
        Scalar.pyOr, Scalar.truthy, optStrScalar, srcUnitFallback,
        itemTypeStr_eq_empty_eq_false]
    · refine ⟨priceToCents (dumpLine ln), ?_, ?_, fun h => h⟩ <;>
        simp +decide [dgetd, aget?_aset_ne, aget?_aset_self, aget?_dump_item_id, aget?_dump_item_type,
        aget?_dump_label, aget?_dump_description, aget?_dump_qty, aget?_dump_unit_price,
        aget?_dump_remise, aget?_dump_total_line, aget?_dump_product_id,
        aget?_dump_service_id, aget?_dump_ref, aget?_dump_name, aget?_dump_unit,
        Scalar.pyOr, Scalar.truthy, optStrScalar, srcUnitFallback,
        itemTypeStr_eq_empty_eq_false]
  · have hlne : ln.label ≠ "" := fun h => by simpa using hsrcnone h
    have hdne : ds ≠ "" := fun h => absurd (hde h) hlne
    refine ⟨_, rfl, ?_, ?_, ?_, ?_, ?_, ?_, ?_, ?_, ?_⟩
    · simp +decide [dgetd, aget?_aset_ne, aget?_aset_self, aget?_dump_item_id, aget?_dump_item_type,
        aget?_dump_label, aget?_dump_description, aget?_dump_qty, aget?_dump_unit_price,
        aget?_dump_remise, aget?_dump_total_line, aget?_dump_product_id,
        aget?_dump_service_id, aget?_dump_ref, aget?_dump_name, aget?_dump_unit,
        Scalar.pyOr, Scalar.truthy, optStrScalar, srcUnitFallback,
        itemTypeStr_eq_empty_eq_false, hlne]
    · simp +decide [dgetd, aget?_aset_ne, aget?_aset_self, aget?_dump_item_id, aget?_dump_item_type,
        aget?_dump_label, aget?_dump_description, aget?_dump_qty, aget?_dump_unit_price,
        aget?_dump_remise, aget?_dump_total_line, aget?_dump_product_id,
        aget?_dump_service_id, aget?_dump_ref, aget?_dump_name, aget?_dump_unit,
        Scalar.pyOr, Scalar.truthy, optStrScalar, srcUnitFallback,
        itemTypeStr_eq_empty_eq_false, hlne]
    · simp +decide [dgetd, aget?_aset_ne, aget?_aset_self, aget?_dump_item_id, aget?_dump_item_type,
        aget?_dump_label, aget?_dump_description, aget?_dump_qty, aget?_dump_unit_price,
        aget?_dump_remise, aget?_dump_total_line, aget?_dump_product_id,
        aget?_dump_service_id, aget?_dump_ref, aget?_dump_name, aget?_dump_unit,
        Scalar.pyOr, Scalar.truthy, optStrScalar, srcUnitFallback,
        itemTypeStr_eq_empty_eq_false, hlne]
    · simp +decide [dgetd, aget?_aset_ne, aget?_aset_self, aget?_dump_item_id, aget?_dump_item_type,
        aget?_dump_label, aget?_dump_description, aget?_dump_qty, aget?_dump_unit_price,
        aget?_dump_remise, aget?_dump_total_line, aget?_dump_product_id,
        aget?_dump_service_id, aget?_dump_ref, aget?_dump_name, aget?_dump_unit,
        Scalar.pyOr, Scalar.truthy, optStrScalar, srcUnitFallback,
        itemTypeStr_eq_empty_eq_false, hdss, hdne, hlne]
    · simp +decide [dgetd, aget?_aset_ne, aget?_aset_self, aget?_dump_item_id, aget?_dump_item_type,
        aget?_dump_label, aget?_dump_description, aget?_dump_qty, aget?_dump_unit_price,
        aget?_dump_remise, aget?_dump_total_line, aget?_dump_product_id,
        aget?_dump_service_id, aget?_dump_ref, aget?_dump_name, aget?_dump_unit,
        Scalar.pyOr, Scalar.truthy, optStrScalar, srcUnitFallback,
        itemTypeStr_eq_empty_eq_false, hlne]
    · simp +decide [dgetd, aget?_aset_ne, aget?_aset_self, aget?_dump_item_id, aget?_dump_item_type,
        aget?_dump_label, aget?_dump_description, aget?_dump_qty, aget?_dump_unit_price,
        aget?_dump_remise, aget?_dump_total_line, aget?_dump_product_id,
        aget?_dump_service_id, aget?_dump_ref, aget?_dump_name, aget?_dump_unit,
        Scalar.pyOr, Scalar.truthy, optStrScalar, srcUnitFallback,
        itemTypeStr_eq_empty_eq_false, hlne]
    · simp +decide [dgetd, aget?_aset_ne, aget?_aset_self, aget?_dump_item_id, aget?_dump_item_type,
        aget?_dump_label, aget?_dump_description, aget?_dump_qty, aget?_dump_unit_price,
        aget?_dump_remise, aget?_dump_total_line, aget?_dump_product_id,
        aget?_dump_service_id, aget?_dump_ref, aget?_dump_name, aget?_dump_unit,
        Scalar.pyOr, Scalar.truthy, optStrScalar, srcUnitFallback,
        itemTypeStr_eq_empty_eq_false, hlne]
    · simp +decide [dgetd, aget?_aset_ne, aget?_aset_self, aget?_dump_item_id, aget?_dump_item_type,
        aget?_dump_label, aget?_dump_description, aget?_dump_qty, aget?_dump_unit_price,
        aget?_dump_remise, aget?_dump_total_line, aget?_dump_product_id,
        aget?_dump_service_id, aget?_dump_ref, aget?_dump_name, aget?_dump_unit,
        Scalar.pyOr, Scalar.truthy, optStrScalar, srcUnitFallback,
        itemTypeStr_eq_empty_eq_false, hlne]
    · refine ⟨if priceToCents (dumpLine ln) = 0 then priceToCents (catItemDump p)
          else priceToCents (dumpLine ln), ?_, ?_, ?_⟩
      · simp +decide [dgetd, aget?_aset_ne, aget?_aset_self, aget?_dump_item_id, aget?_dump_item_type,
        aget?_dump_label, aget?_dump_description, aget?_dump_qty, aget?_dump_unit_price,
        aget?_dump_remise, aget?_dump_total_line, aget?_dump_product_id,
        aget?_dump_service_id, aget?_dump_ref, aget?_dump_name, aget?_dump_unit,
        Scalar.pyOr, Scalar.truthy, optStrScalar, srcUnitFallback,
        itemTypeStr_eq_empty_eq_false, hlne]
      · simp +decide [dgetd, aget?_aset_ne, aget?_aset_self, aget?_dump_item_id, aget?_dump_item_type,
        aget?_dump_label, aget?_dump_description, aget?_dump_qty, aget?_dump_unit_price,
        aget?_dump_remise, aget?_dump_total_line, aget?_dump_product_id,
        aget?_dump_service_id, aget?_dump_ref, aget?_dump_name, aget?_dump_unit,
        Scalar.pyOr, Scalar.truthy, optStrScalar, srcUnitFallback,
        itemTypeStr_eq_empty_eq_false, hlne]
      · intro h
        by_cases hp0 : priceToCents (dumpLine ln) = 0
        · exact hp0
        · rw [if_neg hp0] at h
          exact absurd h hp0

theorem vItemType_itemTypeStr (t : ItemType) :
    vItemType (some (.str (itemTypeStr t))) = .ok t := by
  cases t <;> rfl

/-- Re-hydrating the `model_dump` of a line satisfying the image
invariant is the identity: the catalog is consulted only for dropped
fields, the price machinery lands in dropped keys, and the eight model
fields re-validate to themselves. -/
theorem hydrateLine_dump (cat : Catalog) (ln : QuoteLineM) (h : LineInv ln) :
    hydrateLine cat (dumpLine ln) = .ok ln := by
  obtain ⟨hq, hds, hde⟩ := h
  obtain ⟨ds, hdss⟩ := Option.isSome_iff_exists.mp hds
  have hde2 : ds = "" → ln.label = "" := fun h2 => hde (by rw [hdss, h2])
  obtain ⟨e, he, h1, h2, h3, h4, h5, h6, h7, h8, pc, hp1, hp2, hp0⟩ :=
    enrichLineDict_dump cat ln ds hdss hde2
  rw [hydrateLine, he]
  simp only [Bind.bind, Except.bind]
  obtain ⟨iid, ity, lab, dsc, qy, up, rm, tl⟩ := ln
  simp only at hdss
  subst hdss
  by_cases hpc : pc = 0
  · have hzero := hp0 hpc
    rcases iid with _ | sid <;>
      simp +decide [dgetd, h1, h2, h3, h4, h5, h6, h7, h8, hp1, hp2, hpc, hzero,
        Scalar.pyOr, Scalar.truthy, pyIntOfScalar, exceptOfOption, optStrScalar,
        qtyToFloat_float_of_nonneg _ hq, validateQuoteLine, vOptStr, vStrReq,
        vIntD, vFloatD, vItemType_itemTypeStr, aget?_aset_ne, aget?_aset_self,
        Bind.bind, Except.bind]
  · rcases iid with _ | sid <;>
      simp +decide [dgetd, h1, h2, h3, h4, h5, h6, h7, h8, hp1, hp2, hpc,
        Scalar.pyOr, Scalar.truthy, pyIntOfScalar, exceptOfOption, optStrScalar,
        qtyToFloat_float_of_nonneg _ hq, validateQuoteLine, vOptStr, vStrReq,
        vIntD, vFloatD, vItemType_itemTypeStr, aget?_aset_ne, aget?_aset_self,
        Bind.bind, Except.bind]

/-! ### C1: idempotence of `recalc_totals` -/

theorem aget?_none_of_ahasKey_false {β : Type} (d : List (String × β)) (k : String)
    (h : ahasKey d k = false) : aget? d k = Option.none := by
  rw [ahasKey] at h
  rw [aget?]
  cases hf : d.find? (fun p => p.1 == k)
  · rfl
  · rw [hf] at h
    exact absurd h (by simp)

theorem pyOr_eq_emptystr (a b : Scalar) (h : Scalar.pyOr a b = .str "") :
    a.truthy = false ∧ b = .str "" := by
  by_cases ha : a.truthy = true
  · rw [pyOr_of_truthy a b ha] at h
    rw [h] at ha
    exact absurd ha (by decide)
  · have ha2 : a.truthy = false := by simpa using ha
    rw [pyOr_of_falsy a b ha2] at h
    exact ⟨ha2, h⟩

theorem pyOr_falsy_parts (a b : Scalar) (h : (Scalar.pyOr a b).truthy = false) :
    a.truthy = false ∧ b.truthy = false := by
  by_cases ha : a.truthy = true
  · rw [pyOr_of_truthy a b ha] at h
    rw [h] at ha
    exact absurd ha (by simp)
  · have ha2 : a.truthy = false := by simpa using ha
    rw [pyOr_of_falsy a b ha2] at h
    exact ⟨ha2, h⟩

/-- In the value chain `(d0 or (sD or (lbl or ""))) or ""`, an empty
result forces the inner `lbl or ""` to be empty as well. -/
theorem pyOr_chain_empty (d0 sD lbl : Scalar)
    (h : Scalar.pyOr (Scalar.pyOr d0 (Scalar.pyOr sD (Scalar.pyOr lbl (.str ""))))
        (.str "") = .str "") :
    Scalar.pyOr lbl (.str "") = .str "" := by
  have h1 := (pyOr_eq_emptystr _ _ h).1
  have h2 := (pyOr_falsy_parts _ _ h1).2
  have h3 := (pyOr_falsy_parts _ _ h2).2
  exact pyOr_of_falsy _ _ (pyOr_falsy_parts _ _ h3).1

theorem vStrReq_inv (o : Option Scalar) (s : String) (h : vStrReq o = .ok s) :
    o = some (.str s) := by
  rcases o with _ | v
  · simp [vStrReq] at h
  · rcases v with _ | b | n | q | s2 <;> simp_all [vStrReq]

theorem vOptStr_inv (v : Scalar) (o : Option String) (hne : v ≠ Scalar.none)
    (h : vOptStr (some v) = .ok o) : ∃ s, v = .str s ∧ o = some s := by
  rcases v with _ | b | n | q | s
  · exact absurd rfl hne
  · simp [vOptStr] at h
  · simp [vOptStr] at h
  · simp [vOptStr] at h
  · refine ⟨s, rfl, ?_⟩
    have h2 : (Except.ok (some s) : Except Unit (Option String)) = Except.ok o := h
    injection h2 with h3
    exact h3.symm

/-- Inversion of `QuoteLine.model_validate`: a successful validation
determines each model field from its own key. -/
theorem validateQuoteLine_inv (e : Dict) (ln : QuoteLineM)
    (h : validateQuoteLine e = .ok ln) :
    vOptStr (aget? e "item_id") = .ok ln.item_id ∧
    vItemType (aget? e "item_type") = .ok ln.item_type ∧
    vStrReq (aget? e "label") = .ok ln.label ∧
    vOptStr (aget? e "description") = .ok ln.description ∧
    vFloatD 1 (aget? e "qty") = .ok ln.qty ∧
    vIntD 0 (aget? e "unit_price_ttc_cent") = .ok ln.unit_price_ttc_cent ∧
    vFloatD 0 (aget? e "remise_pct") = .ok ln.remise_pct ∧
    vIntD 0 (aget? e "total_line_ttc_cent") = .ok ln.total_line_ttc_cent := by
  rw [validateQuoteLine] at h
  simp only [Bind.bind, Except.bind] at h
  cases h1 : vOptStr (aget? e "item_id")
  case error err => simp only [h1] at h; exact absurd h (by simp)
  case ok a1 =>
  simp only [h1] at h
  cases h2 : vItemType (aget? e "item_type")
  case error err => simp only [h2] at h; exact absurd h (by simp)
  case ok a2 =>
  simp only [h2] at h
  cases h3 : vStrReq (aget? e "label")
  case error err => simp only [h3] at h; exact absurd h (by simp)
  case ok a3 =>
  simp only [h3] at h
  cases h4 : vOptStr (aget? e "description")
  case error err => simp only [h4] at h; exact absurd h (by simp)
  case ok a4 =>
  simp only [h4] at h
  cases h5 : vFloatD 1 (aget? e "qty")
  case error err => simp only [h5] at h; exact absurd h (by simp)
  case ok a5 =>
  simp only [h5] at h
  cases h6 : vIntD 0 (aget? e "unit_price_ttc_cent")
  case error err => simp only [h6] at h; exact absurd h (by simp)
  case ok a6 =>
  simp only [h6] at h
  cases h7 : vFloatD 0 (aget? e "remise_pct")
  case error err => simp only [h7] at h; exact absurd h (by simp)
  case ok a7 =>
  simp only [h7] at h
  cases h8 : vIntD 0 (aget? e "total_line_ttc_cent")
  case error err => simp only [h8] at h; exact absurd h (by simp)
  case ok a8 =>
  simp only [h8] at h
  injection h with h9
  subst h9
  exact ⟨rfl, rfl, rfl, rfl, rfl, rfl, rfl, rfl⟩

/-- The validation step at the end of `_hydrate_line` only produces
lines satisfying the image invariant, given the shape of the enriched
`label` and `description` values. -/
theorem validate_shape (E1 : Dict) (ln : QuoteLineM) (vl vd qv : Scalar) (tot : Int)
    (hL1 : aget? E1 "label" = some vl)
    (hD1 : aget? E1 "description" = some vd)
    (hvd : vd ≠ Scalar.none) (himp : vd = Scalar.str "" → vl = Scalar.str "")
    (h : validateQuoteLine (aset (aset (aset E1 "qty" (Scalar.float (qtyToFloat qv)))
        "total_ttc_cent" (Scalar.int tot)) "total_ht_cent" (Scalar.int tot)) = .ok ln) :
    LineInv ln := by
  obtain ⟨-, -, h3, h4, h5, -, -, -⟩ := validateQuoteLine_inv _ _ h
  have hLa : aget? (aset (aset (aset E1 "qty" (Scalar.float (qtyToFloat qv)))
      "total_ttc_cent" (Scalar.int tot)) "total_ht_cent" (Scalar.int tot)) "label"
      = some vl := by
    simp +decide [hL1]
  have hDa : aget? (aset (aset (aset E1 "qty" (Scalar.float (qtyToFloat qv)))
      "total_ttc_cent" (Scalar.int tot)) "total_ht_cent" (Scalar.int tot)) "description"
      = some vd := by
    simp +decide [hD1]
  have hQa : aget? (aset (aset (aset E1 "qty" (Scalar.float (qtyToFloat qv)))
      "total_ttc_cent" (Scalar.int tot)) "total_ht_cent" (Scalar.int tot)) "qty"
      = some (Scalar.float (qtyToFloat qv)) := by
    simp +decide
  rw [hLa] at h3
  rw [hDa] at h4
  rw [hQa] at h5
  obtain ⟨s, hvs, hos⟩ := vOptStr_inv vd ln.description hvd h4
  refine ⟨?_, ?_, ?_⟩
  · have h5b : vFloatD 1 (some (Scalar.float (qtyToFloat qv)))
        = .ok (qtyToFloat qv) := rfl
    have h5c := h5.symm.trans h5b
    injection h5c with hq
    rw [hq]
    exact qtyToFloat_nonneg qv
  · rw [hos]
    rfl
  · intro hdesc
    rw [hos] at hdesc
    injection hdesc with hs
    subst hs
    have hvl := himp (by rw [hvs])
    rw [hvl] at h3
    have h3b : (Except.ok "" : Except Unit String) = .ok ln.label := h3
    injection h3b with hlab
    exact hlab.symm

/-- Reading any key other than `item_type` is unaffected by the
conditional `item_type` tagging step of `_enrich_line_dict`. -/
theorem aget?_itemtype_branch (X : Dict) (v : Scalar) (k : String)
    (hk : k ≠ "item_type") (c : Prop) [Decidable c] :
    aget? (if c then X else aset X "item_type" v) k = aget? X k := by
  split
  · rfl
  · exact aget?_aset_ne X "item_type" k v (fun h2 => hk h2.symm)

/-- `_enrich_line_dict` always stores `label` and `description` values
of the shape `x or ""`, where an empty description forces an empty
label (the description chain falls back to the label). -/
theorem enrichLineDict_out (cat : Catalog) (d e : Dict)
    (h : enrichLineDict cat d = .ok e) :
    ∃ vl vd, aget? e "label" = some vl ∧ aget? e "description" = some vd ∧
      vd ≠ Scalar.none ∧ (vd = Scalar.str "" → vl = Scalar.str "") := by
  rw [enrichLineDict] at h
  cases hsrc : findCatalogMatch cat d
  case error err =>
    rw [hsrc] at h
    simp only [Bind.bind, Except.bind] at h
    exact absurd h (by simp)
  case ok src =>
  rw [hsrc] at h
  simp only [Bind.bind, Except.bind] at h
  rcases src with _ | p <;> dsimp only at h
  all_goals repeat split at h
  all_goals (
    injection h with h2
    subst h2
    repeat split
    all_goals simp +decide [aget?_itemtype_branch]
    all_goals exact ⟨pyOr_emptystr_ne_none _, pyOr_chain_empty _ _ _⟩)

/-- Every line object produced by `_hydrate_line` satisfies the image
invariant. -/
theorem hydrateLine_inv (cat : Catalog) (d : Dict) (ln : QuoteLineM)
    (h : hydrateLine cat d = .ok ln) : LineInv ln := by
  rw [hydrateLine] at h
  simp only [Bind.bind, Except.bind] at h
  cases hsrc : enrichLineDict cat d
  case error err =>
    simp only [hsrc] at h
    exact absurd h (by simp)
  case ok e =>
  simp only [hsrc] at h
  obtain ⟨vl, vd, hL, hD, hvd, himp⟩ := enrichLineDict_out cat d e hsrc
  cases hpcs : exceptOfOption (pyIntOfScalar ((dgetd e "price_cents").pyOr (Scalar.int 0)))
  case error err => simp only [hpcs] at h; exact absurd h (by simp)
  case ok pcs =>
  simp only [hpcs] at h
  cases hpcc : exceptOfOption (pyIntOfScalar ((dgetd e "price_cent").pyOr (Scalar.int 0)))
  case error err => simp only [hpcc] at h; exact absurd h (by simp)
  case ok pcc =>
  simp only [hpcc] at h
  by_cases hz : pcs = 0 ∧ pcc = 0
  · simp only [if_pos hz] at h
    by_cases hz2 : priceToCents d ≠ 0
    · simp only [if_pos hz2] at h
      repeat split at h
      all_goals first
        | exact validate_shape _ ln vl vd _ _ (by simp +decide [hL])
            (by simp +decide [hD]) hvd himp h
        | simp at h
    · simp only [if_neg hz2] at h
      repeat split at h
      all_goals first
        | exact validate_shape _ ln vl vd _ _ (by simp +decide [hL])
            (by simp +decide [hD]) hvd himp h
        | simp at h
  · simp only [if_neg hz] at h
    repeat split at h
    all_goals first
      | exact validate_shape _ ln vl vd _ _ (by simp +decide [hL])
          (by simp +decide [hD]) hvd himp h
      | simp at h

/-- Hydrating a list of raw line dicts only produces lines satisfying
the image invariant. -/
theorem mapM_hydrate_inv (cat : Catalog) : ∀ (ds : List Dict) (lns : List QuoteLineM),
    ds.mapM (hydrateLine cat) = .ok lns → ∀ ln ∈ lns, LineInv ln := by
  intro ds
  induction ds with
  | nil =>
    intro lns h ln hln
    have h2 : (Except.ok [] : Except Unit (List QuoteLineM)) = .ok lns := h
    injection h2 with h3
    subst h3
    simp at hln
  | cons a as ih =>
    intro lns h ln hln
    rw [List.mapM_cons] at h
    simp only [Bind.bind, Except.bind, pure, Except.pure] at h
    cases ha : hydrateLine cat a
    case error err => simp only [ha] at h; exact absurd h (by simp)
    case ok b =>
    simp only [ha] at h
    cases has : as.mapM (hydrateLine cat)
    case error err => simp only [has] at h; exact absurd h (by simp)
    case ok bs =>
    simp only [has] at h
    injection h with h2
    subst h2
    rcases List.mem_cons.mp hln with h3 | h3
    · subst h3
      exact hydrateLine_inv cat a ln ha
    · exact ih bs has ln h3

/-- Re-hydrating the dumps of lines satisfying the image invariant is
the identity on the list. -/
theorem mapM_dump_id (cat : Catalog) : ∀ (lns : List QuoteLineM),
    (∀ ln ∈ lns, LineInv ln) →
    (lns.map dumpLine).mapM (hydrateLine cat) = .ok lns := by
  intro lns
  induction lns with
  | nil => intro _; rfl
  | cons a as ih =>
    intro hInv
    rw [List.map_cons, List.mapM_cons]
    rw [hydrateLine_dump cat a (hInv a (by simp))]
    rw [ih (fun ln hln => hInv ln (by simp [hln]))]
    rfl

/-- `recalc_totals` on a pydantic `Quote` is idempotent on success. -/
theorem recalcTotalsModel_idem (cat : Catalog) (q q2 : QuoteM)
    (h : recalcTotalsModel cat q = .ok q2) : recalcTotalsModel cat q2 = .ok q2 := by
  rw [recalcTotalsModel] at h ⊢
  simp only [Bind.bind, Except.bind] at h ⊢
  cases hm : (q.lines.map dumpLine).mapM (hydrateLine cat)
  case error err => simp only [hm] at h; exact absurd h (by simp)
  case ok lns =>
  simp only [hm] at h
  injection h with h2
  have hInv := mapM_hydrate_inv cat (q.lines.map dumpLine) lns hm
  subst h2
  simp only [mapM_dump_id cat lns hInv]

/-- `recalc_totals` on a plain dict quote is idempotent on success. -/
theorem recalcTotalsDict_idem (cat : Catalog) (qd out : QuoteDict)
    (h : recalcTotalsDict cat qd = .ok out) : recalcTotalsDict cat out = .ok out := by
  rw [recalcTotalsDict] at h ⊢
  simp only [Bind.bind, Except.bind] at h ⊢
  cases hm : (normalizeLinesKey qd).mapM (hydrateLine cat)
  case error err => simp only [hm] at h; exact absurd h (by simp)
  case ok lns =>
  simp only [hm] at h
  injection h with h2
  have hInv := mapM_hydrate_inv cat (normalizeLinesKey qd) lns hm
  by_cases hi : ahasKey qd "items" = true
  · rw [if_pos hi] at h2
    have hItems : aget? out "items"
        = some (QVal.arr (lns.map (fun ln => LineElem.dict (dumpLine ln)))) := by
      rw [← h2]; simp +decide
    have hTht : aget? out "total_ht_cent"
        = some (QVal.sc (Scalar.int (lns.map lineGetTotalTtc).sum)) := by
      rw [← h2]; simp +decide
    have hTtc : aget? out "total_ttc_cent"
        = some (QVal.sc (Scalar.int (lns.map lineGetTotalTtc).sum)) := by
      rw [← h2]; simp +decide
    have hHasI : ahasKey out "items" = true := by
      rw [← h2]; simp +decide [ahasKey_aset]
    have hnorm : normalizeLinesKey out = lns.map dumpLine := by
      rw [normalizeLinesKey, hItems]
      simp [elemToDict, List.map_map, Function.comp]
    simp only [hnorm, mapM_dump_id cat lns hInv, hHasI, if_true]
    rw [aset_eq_self _ _ _ hItems, aset_eq_self _ _ _ hTht, aset_eq_self _ _ _ hTtc]
  · have hif : ahasKey qd "items" = false := by
      cases hvv : ahasKey qd "items"
      · rfl
      · exact absurd hvv hi
    rw [if_neg hi] at h2
    by_cases hl : ahasKey qd "lines" = true
    · rw [if_pos hl] at h2
      have hLines : aget? out "lines"
          = some (QVal.arr (lns.map (fun ln => LineElem.dict (dumpLine ln)))) := by
        rw [← h2]; simp +decide
      have hTht : aget? out "total_ht_cent"
          = some (QVal.sc (Scalar.int (lns.map lineGetTotalTtc).sum)) := by
        rw [← h2]; simp +decide
      have hTtc : aget? out "total_ttc_cent"
          = some (QVal.sc (Scalar.int (lns.map lineGetTotalTtc).sum)) := by
        rw [← h2]; simp +decide
      have hItemsNone : aget? out "items" = Option.none := by
        rw [← h2]
        simp +decide [aget?_none_of_ahasKey_false qd "items" hif]
      have hHasIf : ahasKey out "items" = false := by
        rw [← h2]; simp +decide [ahasKey_aset, hif]
      have hHasL : ahasKey out "lines" = true := by
        rw [← h2]; simp +decide [ahasKey_aset]
      have hnorm : normalizeLinesKey out = lns.map dumpLine := by
        rw [normalizeLinesKey, hItemsNone, hLines]
        simp [elemToDict, List.map_map, Function.comp]
      simp only [hnorm, mapM_dump_id cat lns hInv, hHasIf, hHasL,
        Bool.false_eq_true, if_false, if_true]
      rw [aset_eq_self _ _ _ hLines, aset_eq_self _ _ _ hTht, aset_eq_self _ _ _ hTtc]
    · rw [if_neg hl] at h2
      have hItems : aget? out "items"
          = some (QVal.arr (lns.map (fun ln => LineElem.dict (dumpLine ln)))) := by
        rw [← h2]; simp +decide
      have hTht : aget? out "total_ht_cent"
          = some (QVal.sc (Scalar.int (lns.map lineGetTotalTtc).sum)) := by
        rw [← h2]; simp +decide
      have hTtc : aget? out "total_ttc_cent"
          = some (QVal.sc (Scalar.int (lns.map lineGetTotalTtc).sum)) := by
        rw [← h2]; simp +decide
      have hHasI : ahasKey out "items" = true := by
        rw [← h2]; simp +decide [ahasKey_aset]
      have hnorm : normalizeLinesKey out = lns.map dumpLine := by
        rw [normalizeLinesKey, hItems]
        simp [elemToDict, List.map_map, Function.comp]
      simp only [hnorm, mapM_dump_id cat lns hInv, hHasI, if_true]
      rw [aset_eq_self _ _ _ hItems, aset_eq_self _ _ _ hTht, aset_eq_self _ _ _ hTtc]

/-- **C1**: quote reconciliation is idempotent. For every quote
document, dict or pydantic model, on which `recalc_totals` succeeds,
applying `recalc_totals` to its output returns that output unchanged,
field for field. -/
theorem C1_recalc_idempotent :
    (∀ (cat : Catalog) (qd out : QuoteDict),
        recalcTotalsDict cat qd = .ok out → recalcTotalsDict cat out = .ok out) ∧
    (∀ (cat : Catalog) (q out : QuoteM),
        recalcTotalsModel cat q = .ok out → recalcTotalsModel cat out = .ok out) :=
  ⟨recalcTotalsDict_idem, recalcTotalsModel_idem⟩

/-- A concrete quote line for exercising the idempotence theorem. -/
def c1Line : QuoteLineM :=
  ⟨Option.none, ItemType.service, "Prestation", some "Sono", 2, 1500, 0, 0⟩

/-- A concrete pydantic-style quote for the idempotence witness. -/
def c1Quote : QuoteM :=
  ⟨"q1", Option.none, "c1", QuoteStatus.PENDING, Option.none, [c1Line], 5, [],
   Option.none, Option.none⟩

/-- The reconciled form of the concrete dict quote. -/
def c1DictOut : QuoteDict :=
  [("client_id", QVal.sc (.str "c")), ("items", QVal.arr []),
   ("total_ht_cent", QVal.sc (.int 0)), ("total_ttc_cent", QVal.sc (.int 0))]

/-- The reconciled form of `c1Quote` (the total is zeroed because the
hydrated line totals land in dropped keys). -/
def c1ModelOut : QuoteM := {c1Quote with total_ttc_cent := 0}

theorem C1_recalc_idempotent_witness :
    (recalcTotalsDict emptyCat [("client_id", QVal.sc (.str "c"))] = .ok c1DictOut ∧
      recalcTotalsDict emptyCat c1DictOut = .ok c1DictOut) ∧
    (recalcTotalsModel emptyCat c1Quote = .ok c1ModelOut ∧
      recalcTotalsModel emptyCat c1ModelOut = .ok c1ModelOut) := by
  have h1 : recalcTotalsDict emptyCat [("client_id", QVal.sc (.str "c"))]
      = .ok c1DictOut := by decide
  have h2 : recalcTotalsModel emptyCat c1Quote = .ok c1ModelOut := by decide
  exact ⟨⟨h1, C1_recalc_idempotent.1 emptyCat _ _ h1⟩,
    ⟨h2, C1_recalc_idempotent.2 emptyCat _ _ h2⟩⟩

end Erp
